import Mathlib

/-!
Profile onboarding: form controller and edit dialog.

A shallow embedding of the logic in

* `src/components/user-details.jsx` (the edit dialog: `userDetailsSchema`,
  `fetchUserDetails`, `updateUserDetails`, `loadData`, `onSubmit`,
  `getCompletionPercentage`),
* `src/app/(main)/onboarding/_components/onboarding-form.jsx` (the onboarding form:
  `onSubmit`, the completed-steps effect, `getProgressPercentage`, the industry select
  handler).

JavaScript strings are modelled as lists of characters.  Every character the code
inspects (the comma, the space, the white space removed by `trim`) lies in the Basic
Multilingual Plane, so working with code points instead of UTF-16 code units does not
change any result.  Finite JavaScript numbers are modelled by the rational number they
denote; `NaN` and the two infinities are separate constructors.
-/

namespace ProfileSync

/-! ## JavaScript values -/

/-- A JavaScript string. -/
abbrev JsStr := List Char

/-- A JavaScript number: a finite value, `NaN`, `Infinity` or `-Infinity`. -/
inductive JsNum where
  | nan
  | posInf
  | negInf
  | fin (q : ℚ)
  deriving DecidableEq

/-- The values that occur as fields of a profile record or of the form: `undefined`
(an absent property), `null`, booleans, numbers, strings and arrays of strings. -/
inductive JsVal where
  | undefined
  | null
  | bool (b : Bool)
  | num (x : JsNum)
  | str (s : JsStr)
  | arr (xs : List JsStr)
  deriving DecidableEq

/-- The conversion `ToBoolean` on numbers: `NaN` and zero are falsy. -/
def JsNum.truthy : JsNum → Bool
  | .nan => false
  | .posInf => true
  | .negInf => true
  | .fin q => decide (q ≠ 0)

/-- The conversion `ToBoolean`: `undefined`, `null`, `false`, `0`, `NaN` and `""` are
falsy. -/
def JsVal.truthy : JsVal → Bool
  | .undefined => false
  | .null => false
  | .bool b => b
  | .num x => x.truthy
  | .str s => !s.isEmpty
  | .arr _ => true

/-- The expression `a || b`. -/
def JsVal.or (a b : JsVal) : JsVal := if a.truthy then a else b

/-- The comparison `x < 0` on numbers. -/
def JsNum.ltZero : JsNum → Bool
  | .nan => false
  | .posInf => false
  | .negInf => true
  | .fin q => decide (q < 0)

/-- The comparison `x >= 0` on numbers. -/
def JsNum.geZero : JsNum → Bool
  | .nan => false
  | .posInf => true
  | .negInf => false
  | .fin q => decide (0 ≤ q)

/-! ## String primitives -/

/-- White space and line terminators of ECMAScript, the characters removed by
`String.prototype.trim`. -/
def isWhiteSpace (c : Char) : Bool :=
  [0x09, 0x0A, 0x0B, 0x0C, 0x0D, 0x20, 0xA0, 0x1680, 0x2028, 0x2029, 0x202F, 0x205F,
    0x3000, 0xFEFF].contains c.toNat
    || (decide (0x2000 ≤ c.toNat) && decide (c.toNat ≤ 0x200A))

/-- The method `String.prototype.trimStart`. -/
def trimStart (s : JsStr) : JsStr := s.dropWhile isWhiteSpace

/-- The method `String.prototype.trimEnd`. -/
def trimEnd (s : JsStr) : JsStr := (s.reverse.dropWhile isWhiteSpace).reverse

/-- The method `String.prototype.trim`. -/
def trim (s : JsStr) : JsStr := trimEnd (trimStart s)

/-- The scan of `String.prototype.split` for a one-character separator: `cur` holds, in
reverse, the characters read since the last separator. -/
def splitGo (sep : Char) : JsStr → JsStr → List JsStr
  | [], cur => [cur.reverse]
  | c :: cs, cur =>
    if c = sep then cur.reverse :: splitGo sep cs [] else splitGo sep cs (c :: cur)

/-- The call `s.split(sep)` for a one-character separator. The empty string yields
`[""]`. -/
def split (sep : Char) (s : JsStr) : List JsStr := splitGo sep s []

/-- The call `xs.join(sep)` on an array of strings. -/
def joinWith (sep : JsStr) : List JsStr → JsStr
  | [] => []
  | [x] => x
  | x :: y :: rest => x ++ sep ++ joinWith sep (y :: rest)

/-- The function `Math.round` on the rational value of its argument: the nearest integer, a tie
going to the larger one. -/
def mathRound (x : ℚ) : ℤ := ⌊x + 1 / 2⌋

/-! ## The edit dialog: submission -/

/-- The `data` object that `handleSubmit` passes to `onSubmit`: the output of
`userDetailsSchema`, in which the four optional fields may be `undefined`. -/
structure SubmitData where
  name : JsStr
  email : JsStr
  industry : Option JsStr
  experience : Option JsNum
  skills : Option JsStr
  bio : Option JsStr
  deriving DecidableEq

/-- The object `submissionData` that `onSubmit` posts. -/
structure Submission where
  name : JsStr
  email : JsStr
  industry : JsStr
  experience : JsNum
  bio : JsStr
  skills : List JsStr
  deriving DecidableEq

/-- The `skills` entry of `submissionData`:
`data.skills ? data.skills.split(",").map((skill) => skill.trim()).filter(Boolean) : []`. -/
def submissionSkills (skills : Option JsStr) : List JsStr :=
  match skills with
  | none => []
  | some s =>
    if !s.isEmpty then ((split ',' s).map trim).filter (fun t => !t.isEmpty) else []

/-- The object literal `submissionData` built in `onSubmit`. -/
def submissionData (data : SubmitData) : Submission where
  name := data.name
  email := data.email
  industry := match data.industry with
    | some s => if !s.isEmpty then s else []
    | none => []
  experience := match data.experience with
    | some x => if x.truthy then x else .fin 0
    | none => .fin 0
  bio := match data.bio with
    | some s => if !s.isEmpty then s else []
    | none => []
  skills := submissionSkills data.skills

/-! ## The edit dialog: validation -/

/-- The values held by the six fields of the edit form (what `watch()` returns and
what the resolver validates). -/
structure FormValues where
  name : JsVal
  email : JsVal
  industry : JsVal
  experience : JsVal
  skills : JsVal
  bio : JsVal
  deriving DecidableEq

/-- The keys of `userDetailsSchema`. -/
inductive FieldName where
  | name
  | email
  | industry
  | experience
  | skills
  | bio
  deriving DecidableEq

/-- The type tags that zod computes for an input value. -/
inductive ParsedType where
  | undefined
  | null
  | boolean
  | number
  | nan
  | string
  | array
  deriving DecidableEq

/-- The function `getParsedType` of zod. -/
def getParsedType : JsVal → ParsedType
  | .undefined => .undefined
  | .null => .null
  | .bool _ => .boolean
  | .num .nan => .nan
  | .num _ => .number
  | .str _ => .string
  | .arr _ => .array

/-- A validation issue: its kind, the field it is attached to and, for the checks that
the schema configures, the configured message. -/
inductive Issue where
  | invalidType (path : FieldName) (expected received : ParsedType)
  | tooSmall (path : FieldName) (message : String)
  | invalidString (path : FieldName) (message : String)
  deriving DecidableEq

/-- The field an issue is attached to. -/
def Issue.path : Issue → FieldName
  | .invalidType p _ _ => p
  | .tooSmall p _ => p
  | .invalidString p _ => p

/-- The check `.min(n, message)` of a string schema: `input.length < n` raises
`too_small`. -/
def stringMin (path : FieldName) (n : Nat) (message : String) (s : JsStr) : Option Issue :=
  if s.length < n then some (.tooSmall path message) else none

/-- The check `.email(message)` of a string schema; `isEmail` is the test of zod's
e-mail pattern. -/
def stringEmail (isEmail : JsStr → Bool) (path : FieldName) (message : String) (s : JsStr) :
    Option Issue :=
  if !isEmail s then some (.invalidString path message) else none

/-- The check `.min(0, message)` of a number schema: `input < 0` raises `too_small`. -/
def numberMinZero (path : FieldName) (message : String) (x : JsNum) : Option Issue :=
  if x.ltZero then some (.tooSmall path message) else none

/-- The schema `z.string()` with a list of checks: a value that is not a string raises
`invalid_type`; on a string every check is run and their issues are collected. -/
def zString (path : FieldName) (checks : List (JsStr → Option Issue)) (v : JsVal) :
    Except (List Issue) JsStr :=
  match v with
  | .str s =>
    match checks.filterMap (fun check => check s) with
    | [] => .ok s
    | issues => .error issues
  | _ => .error [.invalidType path .string (getParsedType v)]

/-- The schema `z.number()` of zod 3 with a list of checks; `NaN` is not accepted as a
number, the infinities are. -/
def zNumber (path : FieldName) (checks : List (JsNum → Option Issue)) (v : JsVal) :
    Except (List Issue) JsNum :=
  match v with
  | .num .nan => .error [.invalidType path .number .nan]
  | .num x =>
    match checks.filterMap (fun check => check x) with
    | [] => .ok x
    | issues => .error issues
  | _ => .error [.invalidType path .number (getParsedType v)]

/-- The modifier `.optional()`: `undefined` is accepted as it is, every other value goes
to the inner schema. -/
def zOptional {α : Type} (inner : JsVal → Except (List Issue) α) (v : JsVal) :
    Except (List Issue) (Option α) :=
  match v with
  | .undefined => .ok none
  | _ => (inner v).map some

/-- The issues of a field result. -/
def issuesOf {α : Type} : Except (List Issue) α → List Issue
  | .ok _ => []
  | .error issues => issues

/-- The schema `userDetailsSchema`.  Every key is parsed, the issues of all keys are
collected in the order of the keys, and the parsed object is produced when there is
none. -/
def userDetailsSchema (isEmail : JsStr → Bool) (v : FormValues) :
    Except (List Issue) SubmitData :=
  let name := zString .name [stringMin .name 1 "Name is required"] v.name
  let email := zString .email [stringEmail isEmail .email "Invalid email address"] v.email
  let industry := zOptional (zString .industry []) v.industry
  let experience :=
    zOptional (zNumber .experience [numberMinZero .experience "Experience must be 0 or greater"])
      v.experience
  let skills := zOptional (zString .skills []) v.skills
  let bio := zOptional (zString .bio []) v.bio
  match name, email, industry, experience, skills, bio with
  | .ok n, .ok e, .ok i, .ok x, .ok s, .ok b =>
    .ok { name := n, email := e, industry := i, experience := x, skills := s, bio := b }
  | _, _, _, _, _, _ =>
    .error (issuesOf name ++ issuesOf email ++ issuesOf industry ++ issuesOf experience
      ++ issuesOf skills ++ issuesOf bio)

/-- Whether validation succeeds. -/
def accepts (isEmail : JsStr → Bool) (v : FormValues) : Bool :=
  match userDetailsSchema isEmail v with
  | .ok _ => true
  | .error _ => false

/-- The issues reported by validation. -/
def validationIssues (isEmail : JsStr → Bool) (v : FormValues) : List Issue :=
  issuesOf (userDetailsSchema isEmail v)

/-- Letters `A` to `Z` and `a` to `z`. -/
def isAsciiLetter (c : Char) : Bool := c.isAlpha

/-- Letters and digits. -/
def isAsciiAlnum (c : Char) : Bool := c.isAlphanum

/-- Whether a string contains two consecutive dots. -/
def hasDoubleDot : JsStr → Bool
  | '.' :: '.' :: _ => true
  | _ :: rest => hasDoubleDot rest
  | [] => false

/-- The e-mail pattern of zod 3.22,
`/^(?!\.)(?!.*\.\.)([A-Z0-9_'+\-\.]*)[A-Z0-9_+-]@([A-Z0-9][A-Z0-9\-]*\.)+[A-Z]{2,}$/i`,
as a test on strings: one `@`; a local part of allowed characters that does not start
with a dot and ends in a letter, digit, `_`, `+` or `-`; no two consecutive dots; a
domain of one or more labels followed by a top-level label of two or more letters. -/
def emailRegexTest (s : JsStr) : Bool :=
  match split '@' s with
  | [loc, domain] =>
    let localOk :=
      loc.all (fun c => isAsciiAlnum c || "_'+-.".toList.contains c)
        && (match loc.getLast? with
            | some c => isAsciiAlnum c || "_+-".toList.contains c
            | none => false)
        && loc.head? != some '.'
    let labels := split '.' domain
    let domainOk :=
      decide (2 ≤ labels.length)
        && labels.dropLast.all (fun l =>
            (match l.head? with
             | some c => isAsciiAlnum c
             | none => false)
            && l.all (fun c => isAsciiAlnum c || c == '-'))
        && (match labels.getLast? with
            | some tld => decide (2 ≤ tld.length) && tld.all isAsciiLetter
            | none => false)
    localOk && domainOk && !hasDoubleDot s
  | _ => false

/-! ## The edit dialog: state, loading and saving -/

/-- A JSON object: its properties in insertion order. -/
abbrev JsObject := List (String × JsVal)

/-- Property access `o.key`; an absent property reads as `undefined`. -/
def JsObject.get (o : JsObject) (key : String) : JsVal :=
  match o.lookup key with
  | some v => v
  | none => .undefined

/-- Assignment of a property: an existing key keeps its position, a new key is added at
the end. -/
def JsObject.set : JsObject → String → JsVal → JsObject
  | [], key, v => [(key, v)]
  | (k, w) :: rest, key, v =>
    if k = key then (k, v) :: rest else (k, w) :: JsObject.set rest key v

/-- The value of a parsed response body, or of the state `userDetails`: `null` or an
object. -/
inductive Json where
  | null
  | obj (o : JsObject)
  deriving DecidableEq

/-- The spread `...source` inside an object literal under construction: every own
property of the source is assigned; `null` contributes nothing. -/
def spread (target : JsObject) (source : Json) : JsObject :=
  match source with
  | .null => target
  | .obj o => o.foldl (fun acc kv => JsObject.set acc kv.1 kv.2) target

/-- The errors thrown in the dialog. -/
inductive JsError where
  | fetchRejected
  | error (message : String)
  | parseError
  | typeError
  | referenceError (identifier : String)
  deriving DecidableEq

/-- What a call of `fetch` followed by `response.json()` meets: the request is rejected
(a network error), or a response arrives with a status and a body that parses as JSON
(`some`) or does not (`none`). -/
inductive FetchOutcome where
  | rejected
  | response (status : Nat) (body : Option Json)
  deriving DecidableEq

/-- The property `response.ok`: the status is in the range 200 to 299. -/
def responseOk (status : Nat) : Bool := decide (200 ≤ status) && decide (status ≤ 299)

/-- The function `fetchUserDetails`. -/
def fetchUserDetails (get : FetchOutcome) : Except JsError Json :=
  match get with
  | .rejected => .error .fetchRejected
  | .response status body =>
    if !responseOk status then .error (.error "Failed to fetch user details")
    else match body with
      | none => .error .parseError
      | some json => .ok json

/-- The function `updateUserDetails`; `post` is what the request carrying `userData`
meets. -/
def updateUserDetails (post : Submission → FetchOutcome) (userData : Submission) :
    Except JsError Json :=
  match post userData with
  | .rejected => .error .fetchRejected
  | .response status body =>
    if !responseOk status then .error (.error "Failed to update user details")
    else match body with
      | none => .error .parseError
      | some json => .ok json

/-- A notification raised with `toast.success` or `toast.error`. -/
inductive Toast where
  | success (message : String)
  | error (message : String)
  deriving DecidableEq

/-- The state of `UserDetailsDialog`: the five `useState` cells (`dialogOpen` is the cell
`open`), the values of the form, and the notifications raised so far. -/
structure DialogState where
  dialogOpen : Bool
  userDetails : Json
  isDataLoaded : Bool
  fetchingDetails : Bool
  updatingUser : Bool
  form : FormValues
  toasts : List Toast
  deriving DecidableEq

/-- The `defaultValues` of `useForm`. -/
def defaultValues : FormValues where
  name := .str []
  email := .str []
  industry := .str []
  experience := .num (.fin 0)
  skills := .str []
  bio := .str []

/-- The state of the dialog when the component mounts. -/
def DialogState.initial : DialogState where
  dialogOpen := false
  userDetails := .null
  isDataLoaded := false
  fetchingDetails := false
  updatingUser := false
  form := defaultValues
  toasts := []

/-- The constant `skillsString` of `loadData`:
`Array.isArray(details.skills) ? details.skills.join(", ") : details.skills || ""`. -/
def skillsString (details : JsObject) : JsVal :=
  match details.get "skills" with
  | .arr xs => .str (joinWith ", ".toList xs)
  | v => v.or (.str [])

/-- The object passed to `reset` in `loadData`; the six `setValue` calls before it
write the same values. -/
def hydrate (details : JsObject) : FormValues where
  name := (details.get "name").or (.str [])
  email := (details.get "email").or (.str [])
  industry := (details.get "industry").or (.str [])
  experience := (details.get "experience").or (.num (.fin 0))
  skills := skillsString details
  bio := (details.get "bio").or (.str [])

/-- The call `reset(values)` with an object: each field takes the property of that
name. -/
def resetTo (values : Json) : FormValues :=
  match values with
  | .null => defaultValues
  | .obj o =>
    { name := o.get "name", email := o.get "email", industry := o.get "industry",
      experience := o.get "experience", skills := o.get "skills", bio := o.get "bio" }

/-- The identifier `fallbackData` read in the `catch` block of `loadData`.  The module
neither imports nor declares a binding of that name, so evaluating the identifier
throws a `ReferenceError`. -/
def fallbackData : Except JsError Json := .error (.referenceError "fallbackData")

/-- The `try` block of `loadData`: the state reached and the error thrown, if any.
Reading `details.skills` on `null` throws a `TypeError`. -/
def loadDataTry (get : FetchOutcome) (st : DialogState) : DialogState × Option JsError :=
  let st1 := { st with fetchingDetails := true }
  match fetchUserDetails get with
  | .error e => (st1, some e)
  | .ok details =>
    let st2 := { st1 with userDetails := details, isDataLoaded := true }
    match details with
    | .null => (st2, some .typeError)
    | .obj o => ({ st2 with form := hydrate o }, none)

/-- The `catch` block of `loadData`. -/
def loadDataCatch (st : DialogState) : DialogState × Option JsError :=
  let st1 := { st with toasts := st.toasts ++ [.error "Failed to load user details"] }
  match fallbackData with
  | .error e => (st1, some e)
  | .ok fb => ({ st1 with userDetails := fb, form := resetTo fb, isDataLoaded := true }, none)

/-- The function `loadData`: `try`, `catch` on a throw, then `finally`.  The result is
the final state and the error with which the promise of `loadData` rejects, if any. -/
def loadData (get : FetchOutcome) (st : DialogState) : DialogState × Option JsError :=
  let afterTry := loadDataTry get st
  let afterCatch :=
    match afterTry.2 with
    | none => afterTry
    | some _ => loadDataCatch afterTry.1
  ({ afterCatch.1 with fetchingDetails := false }, afterCatch.2)

/-- The handler `onSubmit` of the dialog. -/
def onSubmit (post : Submission → FetchOutcome) (data : SubmitData) (st : DialogState) :
    DialogState :=
  let st1 : DialogState := { st with updatingUser := true }
  let st2 : DialogState :=
    match updateUserDetails post (submissionData data) with
    | .ok updatedUser =>
      { st1 with
        toasts := st1.toasts ++ [.success "Profile updated successfully!"]
        userDetails := .obj (spread (spread [] st1.userDetails) updatedUser)
        dialogOpen := false }
    | .error _ => { st1 with toasts := st1.toasts ++ [.error "Failed to update profile"] }
  { st2 with updatingUser := false }

/-- The comparison `value >= 0` on an arbitrary value; `toNumber` is the conversion of a
string to a number.  `undefined` converts to `NaN`, `null` to `0`, a boolean to `0` or
`1`, and an array first to the string of its elements joined by commas. -/
def geZero (toNumber : JsStr → JsNum) : JsVal → Bool
  | .undefined => false
  | .null => true
  | .bool _ => true
  | .num x => x.geZero
  | .str s => (toNumber s).geZero
  | .arr xs => (toNumber (joinWith [','] xs)).geZero

/-- The test `value !== null && value !== undefined && value !== ""`. -/
def isFilled (value : JsVal) : Bool :=
  value != .null && value != .undefined && value != .str []

/-- The test `value !== null && value !== undefined && value >= 0` applied to
`experience`. -/
def isFilledExperience (toNumber : JsStr → JsNum) (value : JsVal) : Bool :=
  value != .null && value != .undefined && geZero toNumber value

/-- The property `watchedFields[field]`. -/
def FormValues.get (w : FormValues) : FieldName → JsVal
  | .name => w.name
  | .email => w.email
  | .industry => w.industry
  | .experience => w.experience
  | .skills => w.skills
  | .bio => w.bio

/-- The function `getCompletionPercentage`.  As in `getProgressPercentage` the
arithmetic is exact; no sixth of a hundred is close to a rounding boundary. -/
def getCompletionPercentage (toNumber : JsStr → JsNum) (watchedFields : FormValues) : ℤ :=
  let fields : List FieldName := [.name, .email, .industry, .experience, .skills, .bio]
  let completed :=
    (fields.filter (fun field =>
      let value := watchedFields.get field
      if field = .experience then isFilledExperience toNumber value
      else isFilled value)).length
  mathRound ((completed : ℚ) / (fields.length : ℚ) * 100)

/-- The derived field `completedFieldCount` of the specification for the edit dialog:
the number of fields among name, email, industry, experience, skills and bio whose value
is neither `null`, `undefined` nor the empty string. -/
def editCompletedFieldCount (w : FormValues) : Nat :=
  ([w.name, w.email, w.industry, w.experience, w.skills, w.bio].filter
    (fun value => decide (value ≠ .null ∧ value ≠ .undefined ∧ value ≠ .str []))).length

/-! ## The edit dialog: effects -/

/-- Property access on the state `userDetails`; `null` contributes no property to a
spread. -/
def Json.get (j : Json) (key : String) : JsVal :=
  match j with
  | .null => .undefined
  | .obj o => o.get key

/-- The state setter `setOpen`, called by the dialog trigger, by `onOpenChange` and by the
Cancel button. -/
def setOpen (value : Bool) (st : DialogState) : DialogState := { st with dialogOpen := value }

/-- The effect with the comment "Load user details when dialog opens": it runs `loadData`
when `open && !isDataLoaded`. -/
def loadEffect (get : FetchOutcome) (st : DialogState) : DialogState × Option JsError :=
  if st.dialogOpen && !st.isDataLoaded then loadData get st else (st, none)

/-- The effect with the comment "Reset data loaded flag when dialog closes". -/
def resetEffect (st : DialogState) : DialogState :=
  if !st.dialogOpen then { st with isDataLoaded := false, userDetails := .null } else st

/-- The part of `loadData` that runs before `await fetchUserDetails()`:
`setFetchingDetails(true)`.  The request is then in flight and the handlers of the
component can run before it is answered. -/
def loadDataStart (st : DialogState) : DialogState := { st with fetchingDetails := true }

/-- The part of `loadData` that runs once the request is answered: the rest of the
`try` block, the `catch` block on a throw, and `finally`.  The state setters act on the
state the component has at that moment. -/
def loadDataResume (get : FetchOutcome) (st : DialogState) : DialogState × Option JsError :=
  let afterTry : DialogState × Option JsError :=
    match fetchUserDetails get with
    | .error e => (st, some e)
    | .ok details =>
      let st2 : DialogState := { st with userDetails := details, isDataLoaded := true }
      match details with
      | .null => (st2, some .typeError)
      | .obj o => ({ st2 with form := hydrate o }, none)
  let afterCatch :=
    match afterTry.2 with
    | none => afterTry
    | some _ => loadDataCatch afterTry.1
  ({ afterCatch.1 with fetchingDetails := false }, afterCatch.2)

/-! ## The sync endpoint -/

/-- A response built with `new Response(JSON.stringify(userData))`: the default status
200 and the serialised value. -/
structure Response where
  status : Nat
  body : Json
  deriving DecidableEq

/-- The handler `GET` of `route.js`.  `getUserDetails` is the action imported from
`@/actions/user`; it works on the server state `σ` and returns or throws. -/
def GET {σ : Type} (getUserDetails : σ → σ × Except JsError Json) (server : σ) :
    σ × Except JsError Response :=
  match getUserDetails server with
  | (server1, .ok userData) => (server1, .ok { status := 200, body := userData })
  | (server1, .error e) => (server1, .error e)

/-- The handler `POST` of `route.js`.  `requestBody` is the body of the request, `none`
when `request.json()` cannot parse it; `updateUserData` is the action imported from
`@/actions/user`. -/
def POST {σ : Type} (updateUserData : Json → σ → σ × Except JsError Json)
    (requestBody : Option Json) (server : σ) : σ × Except JsError Response :=
  match requestBody with
  | none => (server, .error .parseError)
  | some payload =>
    match updateUserData payload server with
    | (server1, .ok userData) => (server1, .ok { status := 200, body := userData })
    | (server1, .error e) => (server1, .error e)

/-- The body that `updateUserDetails` sends, `JSON.stringify(userData)`, as the handler
parses it back: the six properties of `submissionData` in their order; a number that is
not finite is serialised as `null`. -/
def Submission.toJson (s : Submission) : JsObject :=
  [("name", .str s.name), ("email", .str s.email), ("industry", .str s.industry),
   ("experience", match s.experience with
      | .fin q => .num (.fin q)
      | _ => .null),
   ("bio", .str s.bio), ("skills", .arr s.skills)]

/-- What the `fetch` of the client meets when Next.js runs a route handler: the response
the handler returns, or, when the promise of the handler rejects, the answer of the
framework with status 500, whose body is not built by the handler and is no JSON. -/
def served (result : Except JsError Response) : FetchOutcome :=
  match result with
  | .ok response => .response response.status (some response.body)
  | .error _ => .response 500 none

/-- Modelled from the spec: the server state behind the two actions of `@/actions/user`,
which are not among the sources.  It holds the identity that the session provider
supplies for the caller (`none` when it is missing or invalid) and the user-record
store, one record per identity (sections 3 and 4.2). -/
structure Server where
  caller : Option String
  records : List (String × JsObject)
  deriving DecidableEq

/-- Modelled from the spec: the empty/default record that GET returns for a caller
without a record (section 4.2); the action `getUserDetails` that would build it is not
among the sources.  The required fields are empty, the optional ones absent. -/
def defaultRecord : JsObject := [("name", .str []), ("email", .str []), ("skills", .arr [])]

/-- Modelled from the spec: the action `getUserDetails` of `@/actions/user`, not among
the sources.  It resolves the caller, fetches the record of that identity and returns
it, or the default record when none exists; without an identity it fails as
unauthorized and does not touch the store (section 4.2). -/
def getUserDetails (server : Server) : Server × Except JsError Json :=
  match server.caller with
  | none => (server, .error (.error "Unauthorized"))
  | some id =>
    match server.records.lookup id with
    | some record => (server, .ok (.obj record))
    | none => (server, .ok (.obj defaultRecord))

/-- Modelled from the spec: the validation that POST re-checks on the server (the rules
of section 4.1 on the payload shape of section 6), part of the action `updateUserData`,
not among the sources.  The result names the first failing field.  The properties are
read under the names that `onSubmit` sends: `industry` holds the spec's `industryKey`
and `experience` its `experienceYears`. -/
def payloadError (isEmail : JsStr → Bool) (payload : Json) : Option String :=
  match payload with
  | .null => some "payload"
  | .obj o =>
    let nameOk := match o.get "name" with
      | .str s => !s.isEmpty
      | _ => false
    let emailOk := match o.get "email" with
      | .str s => isEmail s
      | _ => false
    let industryOk := match o.get "industry" with
      | .undefined => true
      | .str _ => true
      | _ => false
    let experienceOk := match o.get "experience" with
      | .undefined => true
      | .num (.fin q) => q.isInt && decide (0 ≤ q) && decide (q ≤ 50)
      | _ => false
    let skillsOk := match o.get "skills" with
      | .undefined => true
      | .arr _ => true
      | _ => false
    let bioOk := match o.get "bio" with
      | .undefined => true
      | .str _ => true
      | _ => false
    if !nameOk then some "name"
    else if !emailOk then some "email"
    else if !industryOk then some "industry"
    else if !experienceOk then some "experience"
    else if !skillsOk then some "skills"
    else if !bioOk then some "bio"
    else none

/-- Modelled from the spec: the upsert of the store, keyed by identity: the record of
`id` is created or overwritten, the other records stay (section 3). -/
def upsert (records : List (String × JsObject)) (id : String) (record : JsObject) :
    List (String × JsObject) :=
  (id, record) :: records.filter (fun entry => entry.1 != id)

/-- Modelled from the spec: the action `updateUserData` of `@/actions/user`, not among
the sources.  It resolves the caller, validates the payload, writes the record of that
identity and returns the stored record; without an identity, or with a payload that
fails validation, it fails with a description and does not touch the store
(section 4.2). -/
def updateUserData (isEmail : JsStr → Bool) (payload : Json) (server : Server) :
    Server × Except JsError Json :=
  match server.caller with
  | none => (server, .error (.error "Unauthorized"))
  | some id =>
    match payloadError isEmail payload, payload with
    | some field, _ => (server, .error (.error field))
    | none, .null => (server, .error (.error "payload"))
    | none, .obj record =>
      ({ server with records := upsert server.records id record }, .ok (.obj record))

/-! ## The onboarding form -/

namespace OnboardingForm

/-- A value of a form field of the onboarding form: `undefined` (`none`) until the
field is first written (the form has no default values), afterwards the string held by
the input or chosen in the select. -/
abbrev Field := Option JsStr

/-- The conversion `ToBoolean` on a field value: `undefined` and `""` are falsy. -/
def truthy : Field → Bool
  | none => false
  | some s => !s.isEmpty

/-- The template-literal conversion of a field value: `undefined` prints as
`"undefined"`. -/
def templateString : Field → JsStr
  | none => "undefined".toList
  | some s => s

/-- The global replacement `.replace(/ /g, "-")`: every U+0020 becomes a hyphen. -/
def replaceSpaces : JsStr → JsStr
  | [] => []
  | c :: cs => (if c = ' ' then '-' else c) :: replaceSpaces cs

/-- The `values` object received by `onSubmit`.  `industry` and `subIndustry` are the
two properties the handler reads; `rest` stands for the remaining properties, which
the handler passes on through the spread `...values`. -/
structure Values (ρ : Type) where
  industry : Field
  subIndustry : Field
  rest : ρ

/-- The argument of `updateUserFn`: `{ ...values, industry: formattedIndustry }`. -/
structure Payload (ρ : Type) where
  industry : JsStr
  subIndustry : Field
  rest : ρ

/-- The handler `onSubmit` of the onboarding form, as the argument with which it calls
`updateUserFn`.  `toLowerCase` is `String.prototype.toLowerCase`.  When
`values.subIndustry` is `undefined` the call `.toLowerCase()` throws a `TypeError`,
which the `catch` block logs, and `updateUserFn` is not called (`none`). -/
def onSubmit {ρ : Type} (toLowerCase : JsStr → JsStr) (values : Values ρ) :
    Option (Payload ρ) :=
  match values.subIndustry with
  | none => none
  | some sub =>
    let formattedIndustry :=
      templateString values.industry ++ '-' :: replaceSpaces (toLowerCase sub)
    some { industry := formattedIndustry, subIndustry := values.subIndustry,
           rest := values.rest }

/-- Lower-casing of the letters `A` to `Z`; on strings of ASCII characters
`String.prototype.toLowerCase` coincides with it. -/
def asciiToLowerCase (s : JsStr) : JsStr := s.map Char.toLower

/-- The five values observed with `watch`. -/
structure Watched where
  industry : Field
  subIndustry : Field
  experience : Field
  skills : Field
  bio : Field
  deriving DecidableEq

/-- The keys stored in the set `completedSteps`. -/
inductive Step where
  | industry
  | subIndustry
  | experience
  | skills
  | bio
  deriving DecidableEq

/-- The method `Set.prototype.add` on a set kept in insertion order. -/
def setAdd (s : List Step) (x : Step) : List Step := if x ∈ s then s else s ++ [x]

/-- The set `newCompletedSteps` built by the effect that tracks completed steps; the
effect stores it in the state `completedSteps`. -/
def trackCompletedSteps (w : Watched) : List Step :=
  let s0 : List Step := []
  let s1 := if truthy w.industry then setAdd s0 .industry else s0
  let s2 := if truthy w.subIndustry then setAdd s1 .subIndustry else s1
  let s3 := if truthy w.experience then setAdd s2 .experience else s2
  let s4 := if truthy w.skills then setAdd s3 .skills else s3
  if truthy w.bio then setAdd s4 .bio else s4

/-- The function `getProgressPercentage`, reading `watchIndustry` and the state
`completedSteps`.  The quotient and the product are computed exactly; the
double-precision results differ from the exact ones by less than `1e-13`, and no exact
value that occurs (`completedSteps.size ≤ 5`, `totalSteps` 4 or 5) is that close to a
rounding boundary. -/
def getProgressPercentage (watchIndustry : Field) (completedSteps : List Step) : ℤ :=
  let totalSteps : ℚ := if truthy watchIndustry then 5 else 4
  mathRound ((completedSteps.length : ℚ) / totalSteps * 100)

/-- An entry of the reference table `industries`. -/
structure Industry where
  id : JsStr
  name : JsStr
  subIndustries : List JsStr
  deriving DecidableEq

/-- The state `selectedIndustry`: initially `null`, afterwards the result of
`industries.find`, an entry or `undefined`. -/
inductive Selected where
  | null
  | undefined
  | entry (ind : Industry)
  deriving DecidableEq

/-- The call `industries.find((ind) => ind.id === value)`: the first matching entry. -/
def find (industries : List Industry) (value : JsStr) : Selected :=
  match industries with
  | [] => .undefined
  | ind :: more => if ind.id = value then .entry ind else find more value

/-- The form values together with the state `selectedIndustry`. -/
structure State where
  form : Watched
  selectedIndustry : Selected
  deriving DecidableEq

/-- The handler `onValueChange` of the industry select. -/
def onIndustryChange (industries : List Industry) (value : JsStr) (st : State) : State :=
  let form1 := { st.form with industry := some value }
  let selected := find industries value
  let form2 := { form1 with subIndustry := some [] }
  { form := form2, selectedIndustry := selected }

/-- The derived field `completedFieldCount` of the specification for the onboarding
flow: the number of fields among industry, specialization, experience, skills and bio
that are non-empty. -/
def completedFieldCount (w : Watched) : Nat :=
  ([w.industry, w.subIndustry, w.experience, w.skills, w.bio].filter
    (fun f => decide (f ≠ none ∧ f ≠ some []))).length

/-- The quantity `totalTrackedFields` of the specification: 5 if an industry has been
chosen, else 4. -/
def totalTrackedFields (w : Watched) : Nat :=
  if w.industry ≠ none ∧ w.industry ≠ some [] then 5 else 4

/-- What one render of `OnboardingForm` reads: the form values and `selectedIndustry`
(`state`) and the state cell `completedSteps`.  The cell is written by the tracking
effect, which runs after the render has been committed, so the render that follows a
change of the form still reads the set computed from the values before the change. -/
structure Rendered where
  state : State
  completedSteps : List Step
  deriving DecidableEq

/-- The first render: no field has a value, `selectedIndustry` is `null` and
`completedSteps` is the empty set of `useState(new Set())`. -/
def Rendered.initial : Rendered where
  state :=
    { form := { industry := none, subIndustry := none, experience := none, skills := none,
                bio := none },
      selectedIndustry := .null }
  completedSteps := []

/-- The value of `getProgressPercentage()` in a render. -/
def Rendered.percentage (r : Rendered) : ℤ :=
  getProgressPercentage r.state.form.industry r.completedSteps

/-- The tracking effect, run after a render is committed:
`setCompletedSteps(newCompletedSteps)` with the set computed from the watched values. -/
def runTrackingEffect (r : Rendered) : Rendered :=
  { r with completedSteps := trackCompletedSteps r.state.form }

/-- The render that follows the industry select handler: the form values and
`selectedIndustry` are the new ones, `completedSteps` is still the old set. -/
def Rendered.pickIndustry (industries : List Industry) (value : JsStr) (r : Rendered) :
    Rendered :=
  { r with state := onIndustryChange industries value r.state }

/-- The render that follows typing `value` into the skills input: the registered input
writes the form value, `completedSteps` is still the old set. -/
def Rendered.typeSkills (value : JsStr) (r : Rendered) : Rendered :=
  { r with state := { r.state with form := { r.state.form with skills := some value } } }

end OnboardingForm

/-! ## Theorems -/

theorem splitGo_ne_nil (sep : Char) (s cur : JsStr) : splitGo sep s cur ≠ [] := by
  induction s generalizing cur with
  | nil => simp [splitGo]
  | cons c cs ih =>
    unfold splitGo
    split
    · simp
    · exact ih _

theorem joinWith_cons (sep x : JsStr) (rest : List JsStr) (h : rest ≠ []) :
    joinWith sep (x :: rest) = x ++ sep ++ joinWith sep rest := by
  cases rest with
  | nil => exact absurd rfl h
  | cons y ys => rfl

theorem splitGo_joinWith (sep : Char) (s cur : JsStr) :
    joinWith [sep] (splitGo sep s cur) = cur.reverse ++ s := by
  induction s generalizing cur with
  | nil => simp [splitGo, joinWith]
  | cons c cs ih =>
    unfold splitGo
    split
    · next h =>
      subst h
      rw [joinWith_cons _ _ _ (splitGo_ne_nil _ _ _), ih]
      simp
    · rw [ih]; simp

/-- Joining the pieces of `split` with the separator gives the string back. -/
theorem split_joinWith (sep : Char) (s : JsStr) : joinWith [sep] (split sep s) = s := by
  simp [split, splitGo_joinWith]

theorem splitGo_not_mem (sep : Char) (s cur : JsStr) (hcur : sep ∉ cur) :
    ∀ p ∈ splitGo sep s cur, sep ∉ p := by
  induction s generalizing cur with
  | nil => simp [splitGo, hcur]
  | cons c cs ih =>
    unfold splitGo
    split
    · intro p hp
      rcases List.mem_cons.mp hp with rfl | hp
      · simpa using hcur
      · exact ih [] (by simp) p hp
    · next h =>
      apply ih
      simp only [List.mem_cons, not_or]
      exact ⟨fun e => h e.symm, hcur⟩

/-- No piece of `split` contains the separator. -/
theorem split_not_mem (sep : Char) (s : JsStr) : ∀ p ∈ split sep s, sep ∉ p :=
  splitGo_not_mem sep s [] (by simp)

theorem split_nil (sep : Char) : split sep [] = [[]] := rfl

theorem mathRound_spec (x : ℚ) : (mathRound x : ℚ) - 1 / 2 ≤ x ∧ x < mathRound x + 1 / 2 := by
  unfold mathRound
  constructor
  · have := Int.floor_le (x + 1 / 2)
    linarith
  · have := Int.lt_floor_add_one (x + 1 / 2)
    linarith

theorem mathRound_mono {x y : ℚ} (h : x ≤ y) : mathRound x ≤ mathRound y := by
  unfold mathRound
  exact Int.floor_le_floor (by linarith)

/-- C1: the `skills` entry of the payload built by the dialog's `onSubmit` is the list of
comma-separated pieces of the skills text, each trimmed, with the empty ones dropped, in
the original order; it is empty for an empty or absent text, and
`"Python, JavaScript,  , Go"` gives `["Python", "JavaScript", "Go"]`.  The pieces are
those of `split`: no piece contains a comma, and joined by commas they give the text. -/
theorem submissionData_skills_normalized (data : SubmitData) :
    (submissionData data).skills
        = ((split ',' (data.skills.getD [])).map trim).filter (fun t => decide (t ≠ []))
      ∧ joinWith [','] (split ',' (data.skills.getD [])) = data.skills.getD []
      ∧ (∀ piece ∈ split ',' (data.skills.getD []), ',' ∉ piece)
      ∧ ((data.skills = none ∨ data.skills = some []) → (submissionData data).skills = [])
      ∧ (data.skills = some "Python, JavaScript,  , Go".toList →
          (submissionData data).skills
            = ["Python".toList, "JavaScript".toList, "Go".toList]) := by
  have hfilter : ∀ l : List JsStr,
      l.filter (fun t => !t.isEmpty) = l.filter (fun t => decide (t ≠ [])) := by
    intro l
    apply List.filter_congr
    intro t _
    cases t <;> simp
  refine ⟨?_, split_joinWith _ _, split_not_mem _ _, ?_, ?_⟩
  · cases hs : data.skills with
    | none => simp [submissionData, submissionSkills, hs, split, splitGo, trim, trimStart, trimEnd]
    | some s =>
      cases s with
      | nil => simp [submissionData, submissionSkills, hs, split, splitGo, trim, trimStart, trimEnd]
      | cons c cs => simp [submissionData, submissionSkills, hs, hfilter]
  · rintro (h | h) <;> simp [submissionData, submissionSkills, h]
  · intro h
    simp only [submissionData, h]
    decide

namespace OnboardingForm

theorem replaceSpaces_eq_map (s : JsStr) :
    replaceSpaces s = s.map (fun c => if c = ' ' then '-' else c) := by
  induction s with
  | nil => rfl
  | cons c cs ih => simp [replaceSpaces, ih]

/-- C2: for every industry id `i` and specialization name `s` the onboarding `onSubmit`
calls `updateUserFn` with `industry` equal to `i`, a hyphen, and `s` lower-cased with
every space replaced by a hyphen, the other properties being passed on unchanged; with
`i = "tech"` and `s = "Software Development"` the key is `"tech-software-development"`. -/
theorem onSubmit_composes_industry {ρ : Type} (toLowerCase : JsStr → JsStr) (i s : JsStr)
    (rest : ρ) :
    onSubmit toLowerCase { industry := some i, subIndustry := some s, rest := rest }
        = some { industry :=
                   i ++ "-".toList ++ (toLowerCase s).map (fun c => if c = ' ' then '-' else c),
                 subIndustry := some s, rest := rest }
      ∧ (toLowerCase "Software Development".toList = "software development".toList →
          i = "tech".toList → s = "Software Development".toList →
          onSubmit toLowerCase { industry := some i, subIndustry := some s, rest := rest }
            = some { industry := "tech-software-development".toList, subIndustry := some s,
                     rest := rest })
      ∧ asciiToLowerCase "Software Development".toList = "software development".toList := by
  refine ⟨?_, ?_, by decide⟩
  · simp [onSubmit, templateString, replaceSpaces_eq_map]
  · intro hl hi hs
    subst hi hs
    have hkey : "tech".toList ++ '-' :: replaceSpaces "software development".toList
        = "tech-software-development".toList := by decide
    simp only [onSubmit, templateString, hl, hkey]

/-- The size of the set built by the tracking effect: one for every truthy field. -/
theorem trackCompletedSteps_length (w : Watched) :
    (trackCompletedSteps w).length
      = (truthy w.industry).toNat + (truthy w.subIndustry).toNat + (truthy w.experience).toNat
        + (truthy w.skills).toNat + (truthy w.bio).toNat := by
  unfold trackCompletedSteps
  cases truthy w.industry <;> cases truthy w.subIndustry <;> cases truthy w.experience <;>
    cases truthy w.skills <;> cases truthy w.bio <;> simp [setAdd]

theorem truthy_iff (f : Field) : truthy f = true ↔ (f ≠ none ∧ f ≠ some []) := by
  cases f with
  | none => simp [truthy]
  | some s => cases s <;> simp [truthy]

theorem completedFieldCount_eq (w : Watched) :
    completedFieldCount w
      = (truthy w.industry).toNat + (truthy w.subIndustry).toNat + (truthy w.experience).toNat
        + (truthy w.skills).toNat + (truthy w.bio).toNat := by
  have h : ∀ f : Field, decide (f ≠ none ∧ f ≠ some []) = truthy f := by
    intro f
    rw [Bool.eq_iff_iff]
    simp only [decide_eq_true_eq]
    exact (truthy_iff f).symm
  unfold completedFieldCount
  simp only [h, List.filter]
  cases truthy w.industry <;> cases truthy w.subIndustry <;> cases truthy w.experience <;>
    cases truthy w.skills <;> cases truthy w.bio <;> simp

theorem totalTrackedFields_eq (w : Watched) :
    totalTrackedFields w = if truthy w.industry then 5 else 4 := by
  unfold totalTrackedFields
  by_cases h : truthy w.industry = true
  · simp [h, (truthy_iff _).mp h]
  · have h2 : ¬ (w.industry ≠ none ∧ w.industry ≠ some []) := fun hh => h ((truthy_iff _).mpr hh)
    simp only [h, if_neg h2]
    simp

/-- Fed the set that the tracking effect computes from the same values,
`getProgressPercentage` is the integer nearest to `100 × c / t` (a tie going upwards),
where `c` is the number of non-empty fields among industry, subIndustry, experience,
skills and bio and `t` is 5 if an industry has been chosen and 4 otherwise. -/
theorem getProgressPercentage_eq_round (w : Watched) :
    ((getProgressPercentage w.industry (trackCompletedSteps w) : ℤ) : ℚ) - 1 / 2
        ≤ 100 * (completedFieldCount w : ℚ) / (totalTrackedFields w : ℚ)
      ∧ 100 * (completedFieldCount w : ℚ) / (totalTrackedFields w : ℚ)
        < (getProgressPercentage w.industry (trackCompletedSteps w) : ℚ) + 1 / 2 := by
  have hx : (getProgressPercentage w.industry (trackCompletedSteps w))
      = mathRound (100 * (completedFieldCount w : ℚ) / (totalTrackedFields w : ℚ)) := by
    unfold getProgressPercentage
    rw [trackCompletedSteps_length, completedFieldCount_eq, totalTrackedFields_eq]
    cases truthy w.industry <;> simp <;> congr 1 <;> ring
  rw [hx]
  exact mathRound_spec _

theorem toNat_truthy_le {a b : Field} (h : b = a ∨ (truthy a = false ∧ truthy b = true)) :
    (truthy a).toNat ≤ (truthy b).toNat := by
  rcases h with h | ⟨ha, hb⟩
  · rw [h]
  · simp [ha, hb]

/-- C6: for two onboarding form states with the same total tracked-field count, if the
second is obtained from the first by filling previously empty tracked fields and
changing nothing else, its progress percentage is at least that of the first. -/
theorem getProgressPercentage_mono (a b : Watched)
    (htotal : truthy a.industry = truthy b.industry)
    (hindustry : b.industry = a.industry ∨ (truthy a.industry = false ∧ truthy b.industry = true))
    (hsub : b.subIndustry = a.subIndustry
      ∨ (truthy a.subIndustry = false ∧ truthy b.subIndustry = true))
    (hexperience : b.experience = a.experience
      ∨ (truthy a.experience = false ∧ truthy b.experience = true))
    (hskills : b.skills = a.skills ∨ (truthy a.skills = false ∧ truthy b.skills = true))
    (hbio : b.bio = a.bio ∨ (truthy a.bio = false ∧ truthy b.bio = true)) :
    getProgressPercentage a.industry (trackCompletedSteps a)
      ≤ getProgressPercentage b.industry (trackCompletedSteps b) := by
  have hlen : (trackCompletedSteps a).length ≤ (trackCompletedSteps b).length := by
    rw [trackCompletedSteps_length, trackCompletedSteps_length]
    have h1 := toNat_truthy_le hindustry
    have h2 := toNat_truthy_le hsub
    have h3 := toNat_truthy_le hexperience
    have h4 := toNat_truthy_le hskills
    have h5 := toNat_truthy_le hbio
    omega
  have hq : ((trackCompletedSteps a).length : ℚ) ≤ ((trackCompletedSteps b).length : ℚ) := by
    exact_mod_cast hlen
  unfold getProgressPercentage
  rw [htotal]
  apply mathRound_mono
  have ht : (0 : ℚ) < (if truthy b.industry = true then 5 else 4) := by
    split <;> norm_num
  have hdiv := div_le_div_of_nonneg_right hq ht.le
  simp only at hdiv ⊢
  nlinarith [hdiv]

/-- An instance of C6: filling the skills of a form that so far holds only an industry
raises the percentage from 20 to 40. -/
theorem getProgressPercentage_mono_witness :
    getProgressPercentage (some "tech".toList)
        (trackCompletedSteps
          { industry := some "tech".toList, subIndustry := none, experience := none,
            skills := none, bio := none })
      ≤ getProgressPercentage (some "tech".toList)
        (trackCompletedSteps
          { industry := some "tech".toList, subIndustry := none, experience := none,
            skills := some "Go".toList, bio := none }) :=
  getProgressPercentage_mono
    { industry := some "tech".toList, subIndustry := none, experience := none,
      skills := none, bio := none }
    { industry := some "tech".toList, subIndustry := none, experience := none,
      skills := some "Go".toList, bio := none }
    rfl (Or.inl rfl) (Or.inl rfl) (Or.inl rfl) (Or.inr ⟨rfl, rfl⟩) (Or.inl rfl)

theorem find_eq_entry_or_undefined (industries : List Industry) (value : JsStr) :
    (∃ before ind after, industries = before ++ ind :: after ∧ ind.id = value
        ∧ (∀ other ∈ before, other.id ≠ value) ∧ find industries value = .entry ind)
      ∨ ((∀ other ∈ industries, other.id ≠ value) ∧ find industries value = .undefined) := by
  induction industries with
  | nil => right; simp [find]
  | cons ind more ih =>
    by_cases h : ind.id = value
    · left
      exact ⟨[], ind, more, rfl, h, by simp, by simp [find, h]⟩
    · rcases ih with ⟨before, ind2, after, hsplit, hid, hbefore, hfind⟩ | ⟨hall, hfind⟩
      · left
        refine ⟨ind :: before, ind2, after, by simp [hsplit], hid, ?_, by simp [find, h, hfind]⟩
        intro other hother
        rcases List.mem_cons.mp hother with rfl | hother
        · exact h
        · exact hbefore other hother
      · right
        refine ⟨?_, by simp [find, h, hfind]⟩
        intro other hother
        rcases List.mem_cons.mp hother with rfl | hother
        · exact h
        · exact hall other hother

/-- C7: for every form state and every industry id `v` the industry select handler sets
`industry` to `v`, sets `selectedIndustry` to the first entry of the reference table
whose id equals `v` (`undefined` when none matches), sets `subIndustry` to the empty
string whatever it was, and leaves experience, skills and bio unchanged. -/
theorem onIndustryChange_effect (industries : List Industry) (v : JsStr) (st : State) :
    (onIndustryChange industries v st).form.industry = some v
      ∧ ((∃ before ind after, industries = before ++ ind :: after ∧ ind.id = v
            ∧ (∀ other ∈ before, other.id ≠ v)
            ∧ (onIndustryChange industries v st).selectedIndustry = .entry ind)
          ∨ ((∀ other ∈ industries, other.id ≠ v)
            ∧ (onIndustryChange industries v st).selectedIndustry = .undefined))
      ∧ (onIndustryChange industries v st).form.subIndustry = some []
      ∧ (onIndustryChange industries v st).form.experience = st.form.experience
      ∧ (onIndustryChange industries v st).form.skills = st.form.skills
      ∧ (onIndustryChange industries v st).form.bio = st.form.bio :=
  ⟨rfl, find_eq_entry_or_undefined industries v, rfl, rfl, rfl, rfl⟩

end OnboardingForm


theorem accepts_eq (isEmail : JsStr → Bool) (v : FormValues) :
    accepts isEmail v
      = ((zString .name [stringMin .name 1 "Name is required"] v.name).isOk
        && (zString .email [stringEmail isEmail .email "Invalid email address"] v.email).isOk
        && (zOptional (zString .industry []) v.industry).isOk
        && (zOptional (zNumber .experience
              [numberMinZero .experience "Experience must be 0 or greater"]) v.experience).isOk
        && (zOptional (zString .skills []) v.skills).isOk
        && (zOptional (zString .bio []) v.bio).isOk) := by
  unfold accepts userDetailsSchema
  generalize zString .name [stringMin .name 1 "Name is required"] v.name = r1
  generalize zString .email [stringEmail isEmail .email "Invalid email address"] v.email = r2
  generalize zOptional (zString .industry []) v.industry = r3
  generalize zOptional (zNumber .experience
              [numberMinZero .experience "Experience must be 0 or greater"]) v.experience = r4
  generalize zOptional (zString .skills []) v.skills = r5
  generalize zOptional (zString .bio []) v.bio = r6
  cases r1 <;> cases r2 <;> cases r3 <;> cases r4 <;> cases r5 <;> cases r6 <;> rfl

theorem validationIssues_eq (isEmail : JsStr → Bool) (v : FormValues) :
    validationIssues isEmail v
      = issuesOf (zString .name [stringMin .name 1 "Name is required"] v.name)
        ++ issuesOf (zString .email [stringEmail isEmail .email "Invalid email address"] v.email)
        ++ issuesOf (zOptional (zString .industry []) v.industry)
        ++ issuesOf (zOptional (zNumber .experience
              [numberMinZero .experience "Experience must be 0 or greater"]) v.experience)
        ++ issuesOf (zOptional (zString .skills []) v.skills)
        ++ issuesOf (zOptional (zString .bio []) v.bio) := by
  unfold validationIssues userDetailsSchema
  generalize zString .name [stringMin .name 1 "Name is required"] v.name = r1
  generalize zString .email [stringEmail isEmail .email "Invalid email address"] v.email = r2
  generalize zOptional (zString .industry []) v.industry = r3
  generalize zOptional (zNumber .experience
              [numberMinZero .experience "Experience must be 0 or greater"]) v.experience = r4
  generalize zOptional (zString .skills []) v.skills = r5
  generalize zOptional (zString .bio []) v.bio = r6
  cases r1 <;> cases r2 <;> cases r3 <;> cases r4 <;> cases r5 <;> cases r6 <;> simp [issuesOf]


theorem zString_path (path : FieldName) (checks : List (JsStr → Option Issue)) (v : JsVal)
    (hchecks : ∀ check ∈ checks, ∀ s issue, check s = some issue → issue.path = path) :
    ∀ issue ∈ issuesOf (zString path checks v), issue.path = path := by
  intro issue hissue
  cases v with
  | str s =>
    simp only [zString] at hissue
    split at hissue
    · simp [issuesOf] at hissue
    · next hne =>
      simp only [issuesOf] at hissue
      obtain ⟨check, hcheck, hsome⟩ := List.mem_filterMap.mp hissue
      exact hchecks check hcheck s issue hsome
  | _ => simp_all [zString, issuesOf, Issue.path]

theorem zNumber_path (path : FieldName) (checks : List (JsNum → Option Issue)) (v : JsVal)
    (hchecks : ∀ check ∈ checks, ∀ x issue, check x = some issue → issue.path = path) :
    ∀ issue ∈ issuesOf (zNumber path checks v), issue.path = path := by
  intro issue hissue
  cases v with
  | num x =>
    cases x with
    | nan => simp_all [zNumber, issuesOf, Issue.path]
    | _ =>
      simp only [zNumber] at hissue
      split at hissue
      · simp [issuesOf] at hissue
      · simp only [issuesOf] at hissue
        obtain ⟨check, hcheck, hsome⟩ := List.mem_filterMap.mp hissue
        exact hchecks check hcheck _ issue hsome
  | _ => simp_all [zNumber, issuesOf, Issue.path]

theorem zOptional_path {α : Type} (path : FieldName) (inner : JsVal → Except (List Issue) α)
    (v : JsVal) (hinner : ∀ issue ∈ issuesOf (inner v), issue.path = path) :
    ∀ issue ∈ issuesOf (zOptional inner v), issue.path = path := by
  intro issue hissue
  cases v with
  | undefined => simp [zOptional, issuesOf] at hissue
  | _ =>
    simp only [zOptional] at hissue
    apply hinner
    revert hissue
    cases inner _ <;> simp [issuesOf, Except.map]


theorem experience_isOk_iff (v : JsVal) (hv : v ≠ .undefined) :
    (zOptional (zNumber .experience
        [numberMinZero .experience "Experience must be 0 or greater"]) v).isOk = true
      ↔ ((∃ q : ℚ, v = .num (.fin q) ∧ 0 ≤ q) ∨ v = .num .posInf) := by
  cases v with
  | undefined => exact absurd rfl hv
  | num x =>
    cases x with
    | fin q =>
      by_cases hq : q < 0
      · have : ¬ (0 ≤ q) := not_le.mpr hq
        simp [zOptional, zNumber, numberMinZero, JsNum.ltZero, hq, this, Except.map,
          Except.isOk, Except.toBool]
      · have : 0 ≤ q := not_lt.mp hq
        simp [zOptional, zNumber, numberMinZero, JsNum.ltZero, hq, this, Except.map,
          Except.isOk, Except.toBool]
    | _ => simp [zOptional, zNumber, numberMinZero, JsNum.ltZero, Except.map,
          Except.isOk, Except.toBool]
  | _ => simp [zOptional, zNumber, Except.map, Except.isOk, Except.toBool]

theorem experience_issues_nil_iff (v : JsVal) :
    issuesOf (zOptional (zNumber .experience
        [numberMinZero .experience "Experience must be 0 or greater"]) v) = []
      ↔ (zOptional (zNumber .experience
        [numberMinZero .experience "Experience must be 0 or greater"]) v).isOk = true := by
  cases v with
  | num x =>
    cases x with
    | fin q =>
      by_cases hq : q < 0 <;>
        simp [zOptional, zNumber, numberMinZero, JsNum.ltZero, hq, Except.map,
          Except.isOk, Except.toBool, issuesOf]
    | _ => simp [zOptional, zNumber, numberMinZero, JsNum.ltZero, Except.map,
          Except.isOk, Except.toBool, issuesOf]
  | _ => simp [zOptional, zNumber, Except.map, Except.isOk, Except.toBool, issuesOf]

theorem optionalString_isOk (path : FieldName) (v : JsVal)
    (h : v = .undefined ∨ ∃ s, v = .str s) :
    (zOptional (zString path []) v).isOk = true := by
  rcases h with rfl | ⟨s, rfl⟩ <;>
    simp [zOptional, zString, Except.map, Except.isOk, Except.toBool]

theorem experience_path (v : JsVal) :
    ∀ issue ∈ issuesOf (zOptional (zNumber .experience
        [numberMinZero .experience "Experience must be 0 or greater"]) v),
      issue.path = .experience := by
  apply zOptional_path
  apply zNumber_path
  intro check hcheck x issue hsome
  simp only [List.mem_singleton] at hcheck
  subst hcheck
  unfold numberMinZero at hsome
  split at hsome
  · cases hsome; rfl
  · cases hsome

theorem other_fields_path (isEmail : JsStr → Bool) (v : FormValues) :
    ∀ issue ∈ issuesOf (zString .name [stringMin .name 1 "Name is required"] v.name)
        ++ issuesOf (zString .email [stringEmail isEmail .email "Invalid email address"] v.email)
        ++ issuesOf (zOptional (zString .industry []) v.industry)
        ++ issuesOf (zOptional (zString .skills []) v.skills)
        ++ issuesOf (zOptional (zString .bio []) v.bio),
      issue.path ≠ .experience := by
  intro issue hissue
  simp only [List.mem_append] at hissue
  have hname := zString_path .name [stringMin .name 1 "Name is required"] v.name (by
    intro check hcheck s issue hsome
    simp only [List.mem_singleton] at hcheck
    subst hcheck
    unfold stringMin at hsome
    split at hsome
    · cases hsome; rfl
    · cases hsome)
  have hemail := zString_path .email [stringEmail isEmail .email "Invalid email address"]
    v.email (by
    intro check hcheck s issue hsome
    simp only [List.mem_singleton] at hcheck
    subst hcheck
    unfold stringEmail at hsome
    split at hsome
    · cases hsome; rfl
    · cases hsome)
  have hindustry := zOptional_path .industry (zString .industry []) v.industry
    (zString_path .industry [] v.industry (by simp))
  have hskills := zOptional_path .skills (zString .skills []) v.skills
    (zString_path .skills [] v.skills (by simp))
  have hbio := zOptional_path .bio (zString .bio []) v.bio
    (zString_path .bio [] v.bio (by simp))
  rcases hissue with (((h | h) | h) | h) | h
  · rw [hname issue h]; decide
  · rw [hemail issue h]; decide
  · rw [hindustry issue h]; decide
  · rw [hskills issue h]; decide
  · rw [hbio issue h]; decide

theorem no_experience_issue_iff (isEmail : JsStr → Bool) (v : FormValues) :
    (∀ issue ∈ validationIssues isEmail v, issue.path ≠ .experience)
      ↔ issuesOf (zOptional (zNumber .experience
          [numberMinZero .experience "Experience must be 0 or greater"]) v.experience) = [] := by
  rw [validationIssues_eq]
  constructor
  · intro h
    apply List.eq_nil_iff_forall_not_mem.mpr
    intro issue hissue
    exact h issue (by simp [hissue]) (experience_path _ issue hissue)
  · intro h issue hissue
    rw [h] at hissue
    apply other_fields_path isEmail v issue
    simpa [List.mem_append, or_assoc] using hissue


theorem name_isOk (n : JsStr) (hn : n ≠ []) :
    (zString .name [stringMin .name 1 "Name is required"] (.str n)).isOk = true := by
  cases n with
  | nil => exact absurd rfl hn
  | cons c cs => simp [zString, stringMin, Except.isOk, Except.toBool]

theorem email_isOk (isEmail : JsStr → Bool) (e : JsStr) (he : isEmail e = true) :
    (zString .email [stringEmail isEmail .email "Invalid email address"] (.str e)).isOk
      = true := by
  simp [zString, stringEmail, he, Except.isOk, Except.toBool]

/-- C3, refuted as stated: with a valid name and e-mail, `userDetailsSchema` accepts the
experience value 51, which is not an integer in the range 0 to 50. -/
theorem userDetailsSchema_accepts_51 :
    ¬ (accepts emailRegexTest
          { name := .str "Ann".toList, email := .str "ann@x.com".toList,
            industry := .undefined, experience := .num (.fin 51), skills := .undefined,
            bio := .undefined } = true
        ↔ ∃ k : ℤ, JsVal.num (.fin 51) = JsVal.num (.fin (k : ℚ)) ∧ 0 ≤ k ∧ k ≤ 50) := by
  intro h
  have hacc : accepts emailRegexTest
      { name := .str "Ann".toList, email := .str "ann@x.com".toList,
        industry := .undefined, experience := .num (.fin 51), skills := .undefined,
        bio := .undefined } = true := by decide
  obtain ⟨k, hk, _, h50⟩ := h.mp hacc
  simp only [JsVal.num.injEq, JsNum.fin.injEq] at hk
  have hk2 : (51 : ℤ) = k := by exact_mod_cast hk
  omega

/-- C3, amended: a present `experience` value raises no issue on the experience field if
and only if it is a number that is at least 0 (a finite number `≥ 0`, or `Infinity`);
there is no upper bound and no test that the number is an integer.  When name, e-mail
and the other optional fields are valid, this is also the condition under which the
input is accepted.  The value -1 is rejected with the issue
`"Experience must be 0 or greater"` on the experience field; 0, 50 and 51 raise none. -/
theorem userDetailsSchema_experience_rule (isEmail : JsStr → Bool) (v : FormValues)
    (hpresent : v.experience ≠ .undefined) :
    ((∀ issue ∈ validationIssues isEmail v, issue.path ≠ .experience)
        ↔ ((∃ q : ℚ, v.experience = .num (.fin q) ∧ 0 ≤ q) ∨ v.experience = .num .posInf))
      ∧ ((∃ n, v.name = .str n ∧ n ≠ []) → (∃ e, v.email = .str e ∧ isEmail e = true) →
          (v.industry = .undefined ∨ ∃ s, v.industry = .str s) →
          (v.skills = .undefined ∨ ∃ s, v.skills = .str s) →
          (v.bio = .undefined ∨ ∃ s, v.bio = .str s) →
          (accepts isEmail v = true
            ↔ ((∃ q : ℚ, v.experience = .num (.fin q) ∧ 0 ≤ q) ∨ v.experience = .num .posInf)))
      ∧ (v.experience = .num (.fin (-1)) →
          Issue.tooSmall .experience "Experience must be 0 or greater"
              ∈ validationIssues isEmail v
            ∧ accepts isEmail v = false)
      ∧ ((v.experience = .num (.fin 0) ∨ v.experience = .num (.fin 50)
            ∨ v.experience = .num (.fin 51)) →
          ∀ issue ∈ validationIssues isEmail v, issue.path ≠ .experience) := by
  have hiff := (no_experience_issue_iff isEmail v).trans
    ((experience_issues_nil_iff v.experience).trans (experience_isOk_iff v.experience hpresent))
  refine ⟨hiff, ?_, ?_, ?_⟩
  · rintro ⟨n, hn, hne⟩ ⟨e, he, hee⟩ hindustry hskills hbio
    rw [accepts_eq, hn, he, name_isOk n hne, email_isOk isEmail e hee,
      optionalString_isOk .industry _ hindustry, optionalString_isOk .skills _ hskills,
      optionalString_isOk .bio _ hbio]
    simp only [Bool.true_and, Bool.and_true]
    exact experience_isOk_iff v.experience hpresent
  · intro h
    constructor
    · rw [validationIssues_eq, h]
      simp [zOptional, zNumber, numberMinZero, JsNum.ltZero, Except.map, issuesOf]
    · rw [accepts_eq, h]
      simp [zOptional, zNumber, numberMinZero, JsNum.ltZero, Except.map, Except.isOk,
        Except.toBool]
  · intro h
    apply hiff.mpr
    rcases h with h | h | h
    · exact Or.inl ⟨0, h, le_refl _⟩
    · exact Or.inl ⟨50, h, by norm_num⟩
    · exact Or.inl ⟨51, h, by norm_num⟩

/-- An instance of the amended C3: a form with name `"Ann"`, e-mail `"ann@x.com"` and
experience 50. -/
theorem userDetailsSchema_experience_rule_witness :
    accepts emailRegexTest
        { name := .str "Ann".toList, email := .str "ann@x.com".toList,
          industry := .undefined, experience := .num (.fin 50), skills := .undefined,
          bio := .undefined } = true :=
  ((userDetailsSchema_experience_rule emailRegexTest
      { name := .str "Ann".toList, email := .str "ann@x.com".toList,
        industry := .undefined, experience := .num (.fin 50), skills := .undefined,
        bio := .undefined } (by decide)).2.1
    ⟨"Ann".toList, rfl, by decide⟩ ⟨"ann@x.com".toList, rfl, by decide⟩
    (Or.inl rfl) (Or.inl rfl) (Or.inl rfl)).mpr (Or.inl ⟨50, rfl, by norm_num⟩)


theorem isFilled_iff (value : JsVal) :
    isFilled value = decide (value ≠ .null ∧ value ≠ .undefined ∧ value ≠ .str []) := by
  rw [Bool.eq_iff_iff]
  simp [isFilled, bne_iff_ne, and_assoc]

/-- The number of fields that `getCompletionPercentage` counts. -/
theorem getCompletionPercentage_eq (toNumber : JsStr → JsNum) (w : FormValues) :
    getCompletionPercentage toNumber w
      = mathRound (100 *
          (((isFilled w.name).toNat + (isFilled w.email).toNat + (isFilled w.industry).toNat
            + (isFilledExperience toNumber w.experience).toNat + (isFilled w.skills).toNat
            + (isFilled w.bio).toNat : Nat) : ℚ) / 6) := by
  unfold getCompletionPercentage
  simp only [List.filter, FormValues.get, reduceCtorEq, if_false, if_true]
  cases isFilled w.name <;> cases isFilled w.email <;> cases isFilled w.industry <;>
    cases isFilledExperience toNumber w.experience <;> cases isFilled w.skills <;>
    cases isFilled w.bio <;> simp <;> congr 1 <;> norm_num

/-- C5, refuted as stated: in a form whose six fields are all non-empty, with experience
-1, `getCompletionPercentage` returns 83, not `round(100 × 6 / 6) = 100`. -/
theorem getCompletionPercentage_negative_experience :
    editCompletedFieldCount
        { name := .str "Ann".toList, email := .str "ann@x.com".toList,
          industry := .str "tech".toList, experience := .num (.fin (-1)),
          skills := .str "Go".toList, bio := .str "Hi".toList } = 6
      ∧ getCompletionPercentage (fun _ => JsNum.nan)
        { name := .str "Ann".toList, email := .str "ann@x.com".toList,
          industry := .str "tech".toList, experience := .num (.fin (-1)),
          skills := .str "Go".toList, bio := .str "Hi".toList } = 83
      ∧ mathRound (100 * ((6 : Nat) : ℚ) / 6) = 100 := by
  refine ⟨by decide, ?_, ?_⟩
  · rw [getCompletionPercentage_eq]
    have h : (isFilled (.str "Ann".toList)).toNat + (isFilled (.str "ann@x.com".toList)).toNat
        + (isFilled (.str "tech".toList)).toNat
        + (isFilledExperience (fun _ => JsNum.nan) (.num (.fin (-1)))).toNat
        + (isFilled (.str "Go".toList)).toNat + (isFilled (.str "Hi".toList)).toNat = 5 := by
      decide
    simp only [h]
    unfold mathRound
    rw [Int.floor_eq_iff]
    norm_num
  · unfold mathRound
    rw [Int.floor_eq_iff]
    norm_num


/-- C5, amended: `getCompletionPercentage` is the integer nearest to `100 × c / 6` (a tie
going upwards), where `c` counts each of name, email, industry, skills and bio whose
value is neither `null`, `undefined` nor the empty string, and counts experience when it
is neither `null` nor `undefined` and compares `>= 0`; a numeric experience is therefore
counted exactly when it is a finite number `≥ 0` or `Infinity`, and not when it is
negative or `NaN`. -/
theorem getCompletionPercentage_rule (toNumber : JsStr → JsNum) (w : FormValues) :
    ((getCompletionPercentage toNumber w : ℤ) : ℚ) - 1 / 2
        ≤ 100 * (((([w.name, w.email, w.industry, w.skills, w.bio].filter
            (fun value => decide (value ≠ .null ∧ value ≠ .undefined ∧ value ≠ .str []))).length
          + (if w.experience ≠ .null ∧ w.experience ≠ .undefined
                ∧ geZero toNumber w.experience = true then 1 else 0) : Nat) : ℚ)) / 6
      ∧ 100 * (((([w.name, w.email, w.industry, w.skills, w.bio].filter
            (fun value => decide (value ≠ .null ∧ value ≠ .undefined ∧ value ≠ .str []))).length
          + (if w.experience ≠ .null ∧ w.experience ≠ .undefined
                ∧ geZero toNumber w.experience = true then 1 else 0) : Nat) : ℚ)) / 6
        < (getCompletionPercentage toNumber w : ℚ) + 1 / 2
      ∧ (∀ x : JsNum, w.experience = .num x →
          ((w.experience ≠ .null ∧ w.experience ≠ .undefined
              ∧ geZero toNumber w.experience = true)
            ↔ ((∃ q : ℚ, x = .fin q ∧ 0 ≤ q) ∨ x = .posInf))) := by
  have hcount : ([w.name, w.email, w.industry, w.skills, w.bio].filter
        (fun value => decide (value ≠ .null ∧ value ≠ .undefined ∧ value ≠ .str []))).length
      + (if w.experience ≠ .null ∧ w.experience ≠ .undefined
            ∧ geZero toNumber w.experience = true then 1 else 0)
      = (isFilled w.name).toNat + (isFilled w.email).toNat + (isFilled w.industry).toNat
        + (isFilledExperience toNumber w.experience).toNat + (isFilled w.skills).toNat
        + (isFilled w.bio).toNat := by
    have hexp : (if w.experience ≠ .null ∧ w.experience ≠ .undefined
          ∧ geZero toNumber w.experience = true then 1 else 0)
        = (isFilledExperience toNumber w.experience).toNat := by
      unfold isFilledExperience
      by_cases h1 : w.experience = .null
      · simp [h1]
      · by_cases h2 : w.experience = .undefined
        · simp [h2]
        · have h1b : (w.experience != JsVal.null) = true := bne_iff_ne.mpr h1
          have h2b : (w.experience != JsVal.undefined) = true := bne_iff_ne.mpr h2
          cases h3 : geZero toNumber w.experience <;> simp [h1, h2, h1b, h2b]
    rw [hexp]
    simp only [← isFilled_iff, List.filter]
    cases isFilled w.name <;> cases isFilled w.email <;> cases isFilled w.industry <;>
      cases isFilled w.skills <;> cases isFilled w.bio <;> simp <;> omega
  rw [hcount, getCompletionPercentage_eq]
  refine ⟨(mathRound_spec _).1, (mathRound_spec _).2, ?_⟩
  intro x hx
  rw [hx]
  cases x with
  | fin q => simp [geZero, JsNum.geZero]
  | _ => simp [geZero, JsNum.geZero]


theorem loadData_ok (st : DialogState) (status : Nat) (details : JsObject)
    (hok : responseOk status = true) :
    loadData (.response status (some (.obj details))) st
      = ({ st with fetchingDetails := false, userDetails := .obj details, isDataLoaded := true,
                   form := hydrate details }, none) := by
  simp [loadData, loadDataTry, fetchUserDetails, hok]

theorem skillsString_of_not_arr (details : JsObject)
    (h : ∀ xs, details.get "skills" ≠ .arr xs) :
    skillsString details = (details.get "skills").or (.str []) := by
  unfold skillsString
  split
  · next xs hxs => exact absurd hxs (h xs)
  · rfl

theorem or_of_str (v : JsVal) (s : JsStr) (h : v = .str s) : v.or (.str []) = .str s := by
  subst h
  cases s <;> simp [JsVal.or, JsVal.truthy]

theorem or_of_absent (v d : JsVal) (h : v = .undefined ∨ v = .null) : v.or d = d := by
  rcases h with rfl | rfl <;> simp [JsVal.or, JsVal.truthy]

/-- C8: after a successful GET that returns the record `details`, `loadData` completes
without an error, stores the record and marks the data as loaded, and the form holds:
for skills, the list joined with `", "` when `details.skills` is a list, the value itself
when it is a string (or any other truthy value that is not a list), and `""` when it is
absent; for name, email, industry and bio the string of the record, or `""` when the
field is absent; for experience the number of the record, or 0 when it is absent.
Absent means `undefined` or `null`. -/
theorem loadData_seeds_form (st : DialogState) (status : Nat) (details : JsObject)
    (hok : responseOk status = true) :
    (loadData (.response status (some (.obj details))) st).2 = none
      ∧ (loadData (.response status (some (.obj details))) st).1.userDetails = .obj details
      ∧ (loadData (.response status (some (.obj details))) st).1.isDataLoaded = true
      ∧ (∀ xs, details.get "skills" = .arr xs →
          (loadData (.response status (some (.obj details))) st).1.form.skills
            = .str (joinWith ", ".toList xs))
      ∧ (∀ s, details.get "skills" = .str s →
          (loadData (.response status (some (.obj details))) st).1.form.skills = .str s)
      ∧ ((∀ xs, details.get "skills" ≠ .arr xs) → (details.get "skills").truthy = true →
          (loadData (.response status (some (.obj details))) st).1.form.skills
            = details.get "skills")
      ∧ (details.get "skills" = .undefined ∨ details.get "skills" = .null →
          (loadData (.response status (some (.obj details))) st).1.form.skills = .str [])
      ∧ (∀ s, details.get "name" = .str s →
          (loadData (.response status (some (.obj details))) st).1.form.name = .str s)
      ∧ (details.get "name" = .undefined ∨ details.get "name" = .null →
          (loadData (.response status (some (.obj details))) st).1.form.name = .str [])
      ∧ (∀ s, details.get "email" = .str s →
          (loadData (.response status (some (.obj details))) st).1.form.email = .str s)
      ∧ (details.get "email" = .undefined ∨ details.get "email" = .null →
          (loadData (.response status (some (.obj details))) st).1.form.email = .str [])
      ∧ (∀ s, details.get "industry" = .str s →
          (loadData (.response status (some (.obj details))) st).1.form.industry = .str s)
      ∧ (details.get "industry" = .undefined ∨ details.get "industry" = .null →
          (loadData (.response status (some (.obj details))) st).1.form.industry = .str [])
      ∧ (∀ q : ℚ, details.get "experience" = .num (.fin q) →
          (loadData (.response status (some (.obj details))) st).1.form.experience
            = .num (.fin q))
      ∧ (details.get "experience" = .undefined ∨ details.get "experience" = .null →
          (loadData (.response status (some (.obj details))) st).1.form.experience
            = .num (.fin 0))
      ∧ (∀ s, details.get "bio" = .str s →
          (loadData (.response status (some (.obj details))) st).1.form.bio = .str s)
      ∧ (details.get "bio" = .undefined ∨ details.get "bio" = .null →
          (loadData (.response status (some (.obj details))) st).1.form.bio = .str []) := by
  rw [loadData_ok st status details hok]
  refine ⟨rfl, rfl, rfl, ?_, ?_, ?_, ?_, ?_, ?_, ?_, ?_, ?_, ?_, ?_, ?_, ?_, ?_⟩
  · intro xs h
    simp [hydrate, skillsString, h]
  · intro s h
    have hlist : ∀ xs, details.get "skills" ≠ .arr xs := by
      intro xs hxs
      rw [h] at hxs
      cases hxs
    simp only [hydrate, skillsString_of_not_arr details hlist]
    exact or_of_str _ s h
  · intro hlist htruthy
    simp only [hydrate, skillsString_of_not_arr details hlist]
    simp [JsVal.or, htruthy]
  · intro h
    have hlist : ∀ xs, details.get "skills" ≠ .arr xs := by
      intro xs hxs
      rcases h with h | h <;> rw [h] at hxs <;> cases hxs
    simp only [hydrate, skillsString_of_not_arr details hlist]
    exact or_of_absent _ _ h
  · exact fun s h => or_of_str _ s h
  · exact fun h => or_of_absent _ _ h
  · exact fun s h => or_of_str _ s h
  · exact fun h => or_of_absent _ _ h
  · exact fun s h => or_of_str _ s h
  · exact fun h => or_of_absent _ _ h
  · intro q h
    simp only [hydrate, h, JsVal.or, JsVal.truthy, JsNum.truthy]
    by_cases hq : q = 0
    · simp [hq]
    · simp [hq]
  · exact fun h => or_of_absent _ _ h
  · exact fun s h => or_of_str _ s h
  · exact fun h => or_of_absent _ _ h

/-- An instance of C8: the record `{ name: "Ann", skills: ["Go", "Rust"] }` seeds the form
with skills `"Go, Rust"`. -/
theorem loadData_seeds_form_witness :
    (loadData (.response 200 (some (.obj
        [("name", .str "Ann".toList), ("skills", .arr ["Go".toList, "Rust".toList])])))
        DialogState.initial).1.form.skills = .str "Go, Rust".toList :=
  (loadData_seeds_form DialogState.initial 200
    [("name", .str "Ann".toList), ("skills", .arr ["Go".toList, "Rust".toList])]
    (by decide)).2.2.2.1 ["Go".toList, "Rust".toList] (by decide)


theorem fetchUserDetails_fails (get : FetchOutcome)
    (hfail : get = .rejected
      ∨ ∃ status body, get = .response status body ∧ responseOk status = false) :
    ∃ e, fetchUserDetails get = .error e := by
  rcases hfail with rfl | ⟨status, body, rfl, hs⟩
  · exact ⟨_, rfl⟩
  · exact ⟨.error "Failed to fetch user details", by simp [fetchUserDetails, hs]⟩

/-- C9, what the code does when the GET fails: `loadData` raises the notification and
clears the fetching flag, but evaluating `fallbackData` throws a `ReferenceError`, so the
form is not reset, `isDataLoaded` and `userDetails` keep their values, and `loadData`
ends with that error. -/
theorem loadData_failure_throws (get : FetchOutcome) (st : DialogState)
    (hfail : get = .rejected
      ∨ ∃ status body, get = .response status body ∧ responseOk status = false) :
    loadData get st
      = ({ st with fetchingDetails := false,
                   toasts := st.toasts ++ [.error "Failed to load user details"] },
         some (.referenceError "fallbackData")) := by
  obtain ⟨e, he⟩ := fetchUserDetails_fails get hfail
  simp [loadData, loadDataTry, loadDataCatch, fallbackData, he]

/-- An instance of C9: the dialog has just been opened, the form still holds the name
typed in an earlier session, and the GET is answered with status 500.  Afterwards
`isDataLoaded` is still `false`, the form still holds that name, and `loadData` has
ended with a `ReferenceError`. -/
theorem loadData_failure_throws_witness :
    (loadData (.response 500 none)
        { DialogState.initial with
          dialogOpen := true
          form := { defaultValues with name := .str "Bob".toList } }).2
        = some (.referenceError "fallbackData")
      ∧ (loadData (.response 500 none)
        { DialogState.initial with
          dialogOpen := true
          form := { defaultValues with name := .str "Bob".toList } }).1.isDataLoaded = false
      ∧ (loadData (.response 500 none)
        { DialogState.initial with
          dialogOpen := true
          form := { defaultValues with name := .str "Bob".toList } }).1.form.name
        = .str "Bob".toList := by
  rw [loadData_failure_throws (.response 500 none) _ (Or.inr ⟨500, none, rfl, by decide⟩)]
  exact ⟨rfl, rfl, rfl⟩

theorem updateUserDetails_fails (post : Submission → FetchOutcome) (userData : Submission)
    (hfail : post userData = .rejected
      ∨ ∃ status body, post userData = .response status body ∧ responseOk status = false) :
    ∃ e, updateUserDetails post userData = .error e := by
  rcases hfail with h | ⟨status, body, h, hs⟩
  · exact ⟨.fetchRejected, by simp [updateUserDetails, h]⟩
  · exact ⟨.error "Failed to update user details", by simp [updateUserDetails, h, hs]⟩

/-- C10: when the POST issued by `onSubmit` fails, by a network error or by a response
whose status is outside 200 to 299, `onSubmit` leaves the form values, `userDetails` and
the open flag (and the two loading flags) as they were, raises the notification
`"Failed to update profile"`, and ends with `updatingUser = false`. -/
theorem onSubmit_failure_preserves (post : Submission → FetchOutcome) (data : SubmitData)
    (st : DialogState)
    (hfail : post (submissionData data) = .rejected
      ∨ ∃ status body, post (submissionData data) = .response status body
          ∧ ¬ (200 ≤ status ∧ status ≤ 299)) :
    (onSubmit post data st).form = st.form
      ∧ (onSubmit post data st).userDetails = st.userDetails
      ∧ (onSubmit post data st).dialogOpen = st.dialogOpen
      ∧ (onSubmit post data st).isDataLoaded = st.isDataLoaded
      ∧ (onSubmit post data st).fetchingDetails = st.fetchingDetails
      ∧ (onSubmit post data st).toasts = st.toasts ++ [.error "Failed to update profile"]
      ∧ (onSubmit post data st).updatingUser = false := by
  have hfail2 : post (submissionData data) = .rejected
      ∨ ∃ status body, post (submissionData data) = .response status body
          ∧ responseOk status = false := by
    rcases hfail with h | ⟨status, body, h, hs⟩
    · exact Or.inl h
    · refine Or.inr ⟨status, body, h, ?_⟩
      unfold responseOk
      by_cases h1 : 200 ≤ status
      · have h2 : ¬ status ≤ 299 := fun h2 => hs ⟨h1, h2⟩
        simp [h2]
      · simp [h1]
  obtain ⟨e, he⟩ := updateUserDetails_fails post (submissionData data) hfail2
  simp [onSubmit, he]

/-- An instance of C10: the server answers every POST with status 500. -/
theorem onSubmit_failure_preserves_witness :
    (onSubmit (fun _ => .response 500 none)
        { name := "Ann".toList, email := "ann@x.com".toList, industry := none,
          experience := some (.fin 5), skills := some "Go, Rust".toList, bio := none }
        { DialogState.initial with dialogOpen := true }).dialogOpen = true
      ∧ (onSubmit (fun _ => .response 500 none)
        { name := "Ann".toList, email := "ann@x.com".toList, industry := none,
          experience := some (.fin 5), skills := some "Go, Rust".toList, bio := none }
        { DialogState.initial with dialogOpen := true }).toasts
          = [.error "Failed to update profile"] :=
  have h := onSubmit_failure_preserves (fun _ => .response 500 none)
    { name := "Ann".toList, email := "ann@x.com".toList, industry := none,
      experience := some (.fin 5), skills := some "Go, Rust".toList, bio := none }
    { DialogState.initial with dialogOpen := true }
    (Or.inr ⟨500, none, rfl, by decide⟩)
  ⟨h.2.2.1, h.2.2.2.2.2.1⟩


theorem lookup_cons_eq (k : String) (v : JsVal) (rest : JsObject) :
    List.lookup k ((k, v) :: rest) = some v := by
  simp [List.lookup]

theorem lookup_cons_ne (k k0 : String) (v : JsVal) (rest : JsObject) (h : k ≠ k0) :
    List.lookup k ((k0, v) :: rest) = List.lookup k rest := by
  have hb : (k == k0) = false := by simpa using h
  simp [List.lookup, hb]

theorem get_set (o : JsObject) (key : String) (v : JsVal) (k : String) :
    (JsObject.set o key v).get k = if k = key then v else o.get k := by
  induction o with
  | nil =>
    by_cases h : k = key
    · subst h
      simp [JsObject.set, JsObject.get, lookup_cons_eq]
    · simp [JsObject.set, JsObject.get, lookup_cons_ne _ _ _ _ h, h]
  | cons entry rest ih =>
    obtain ⟨k0, w⟩ := entry
    unfold JsObject.set
    by_cases h0 : k0 = key
    · subst h0
      by_cases h : k = k0
      · subst h
        simp [JsObject.get, lookup_cons_eq]
      · simp [JsObject.get, lookup_cons_ne _ _ _ _ h, h]
    · simp only [h0, if_false]
      by_cases hk : k = k0
      · subst hk
        simp [JsObject.get, lookup_cons_eq, h0]
      · simp only [JsObject.get, lookup_cons_ne _ _ _ _ hk] at ih ⊢
        exact ih

theorem lookup_none_of_not_mem (o : JsObject) (k : String) (h : k ∉ o.map Prod.fst) :
    o.lookup k = none := by
  induction o with
  | nil => rfl
  | cons entry rest ih =>
    obtain ⟨k0, w⟩ := entry
    simp only [List.map_cons, List.mem_cons, not_or] at h
    rw [lookup_cons_ne _ _ _ _ h.1]
    exact ih h.2

/-- Assigning the properties of an object whose keys are distinct: a key of the source
takes the value of the source, every other key keeps the value of the target. -/
theorem get_foldl_set (o : JsObject) (target : JsObject) (k : String)
    (hkeys : (o.map Prod.fst).Nodup) :
    (o.foldl (fun acc kv => JsObject.set acc kv.1 kv.2) target).get k
      = match o.lookup k with
        | some v => v
        | none => target.get k := by
  induction o generalizing target with
  | nil => rfl
  | cons entry rest ih =>
    obtain ⟨k0, w⟩ := entry
    simp only [List.map_cons, List.nodup_cons] at hkeys
    simp only [List.foldl_cons]
    rw [ih _ hkeys.2]
    by_cases h : k = k0
    · subst h
      simp [lookup_cons_eq, lookup_none_of_not_mem rest k hkeys.1, get_set]
    · simp [lookup_cons_ne _ _ _ _ h, h, get_set]

theorem get_nil (k : String) : JsObject.get [] k = .undefined := rfl

theorem get_spread_nil (prev : Json) (k : String)
    (hprev : ∀ p, prev = .obj p → (p.map Prod.fst).Nodup) :
    (spread [] prev).get k = prev.get k := by
  cases prev with
  | null => rfl
  | obj p =>
    simp only [spread, Json.get]
    rw [get_foldl_set p [] k (hprev p rfl)]
    simp only [JsObject.get]
    cases p.lookup k <;> rfl


theorem onSubmit_ok (post : Submission → FetchOutcome) (data : SubmitData) (st : DialogState)
    (status : Nat) (r : JsObject)
    (hpost : post (submissionData data) = .response status (some (.obj r)))
    (hok : responseOk status = true) :
    onSubmit post data st
      = { st with
          updatingUser := false
          toasts := st.toasts ++ [.success "Profile updated successfully!"]
          userDetails := .obj (spread (spread [] st.userDetails) (.obj r))
          dialogOpen := false } := by
  simp [onSubmit, updateUserDetails, hpost, hok]

/-- C11: when the POST issued by `onSubmit` succeeds with the record `r`, the value given
to `setUserDetails` is an object in which every field present in `r` has the value of
`r` and every field absent from `r` has the value it had in the previous `userDetails`
(`undefined` where it had none).  Objects have distinct keys. -/
theorem onSubmit_merges_response (post : Submission → FetchOutcome) (data : SubmitData)
    (st : DialogState) (status : Nat) (r : JsObject)
    (hpost : post (submissionData data) = .response status (some (.obj r)))
    (hok : responseOk status = true)
    (hr : (r.map Prod.fst).Nodup)
    (hprev : ∀ p, st.userDetails = .obj p → (p.map Prod.fst).Nodup) :
    ∃ merged : JsObject,
      (onSubmit post data st).userDetails = .obj merged
        ∧ (∀ k v, r.lookup k = some v → merged.get k = v)
        ∧ (∀ k, r.lookup k = none → merged.get k = st.userDetails.get k) := by
  refine ⟨spread (spread [] st.userDetails) (.obj r), ?_, ?_, ?_⟩
  · rw [onSubmit_ok post data st status r hpost hok]
  · intro k v hk
    simp only [spread]
    rw [get_foldl_set r _ k hr, hk]
  · intro k hk
    have h := get_foldl_set r (spread [] st.userDetails) k hr
    rw [hk] at h
    simp only [spread] at h ⊢
    rw [h]
    exact get_spread_nil st.userDetails k hprev

/-- An instance of C11: the previous details hold a name and an id, the server returns a
new name and a bio; afterwards the name and the bio are those of the server and the id
is the previous one. -/
theorem onSubmit_merges_response_witness :
    ∃ merged : JsObject,
      (onSubmit
          (fun _ => .response 200 (some (.obj
            [("name", .str "Ann B".toList), ("bio", .str "Hi".toList)])))
          { name := "Ann B".toList, email := "ann@x.com".toList, industry := none,
            experience := none, skills := none, bio := some "Hi".toList }
          { DialogState.initial with
            dialogOpen := true
            userDetails := .obj [("id", .str "u1".toList), ("name", .str "Ann".toList)] }
        ).userDetails = .obj merged
        ∧ merged.get "name" = .str "Ann B".toList
        ∧ merged.get "bio" = .str "Hi".toList
        ∧ merged.get "id" = .str "u1".toList := by
  obtain ⟨merged, hm, hpresent, habsent⟩ := onSubmit_merges_response
    (fun _ => .response 200 (some (.obj
      [("name", .str "Ann B".toList), ("bio", .str "Hi".toList)])))
    { name := "Ann B".toList, email := "ann@x.com".toList, industry := none,
      experience := none, skills := none, bio := some "Hi".toList }
    { DialogState.initial with
      dialogOpen := true
      userDetails := .obj [("id", .str "u1".toList), ("name", .str "Ann".toList)] }
    200 [("name", .str "Ann B".toList), ("bio", .str "Hi".toList)] rfl (by decide)
    (by decide) (by
      intro p hp
      cases hp
      decide)
  exact ⟨merged, hm, hpresent "name" _ (by decide), hpresent "bio" _ (by decide),
    (habsent "id" (by decide)).trans (by decide)⟩

/-- C15: the field rules of `userDetailsSchema` are evaluated independently: an empty name
is rejected with `"Name is required"` on the name field, an e-mail string that fails the
e-mail test is rejected with `"Invalid email address"` on the email field, and an input
with both faults is reported with both issues, in that order, whatever the other fields
hold. -/
theorem userDetailsSchema_independent_rules (isEmail : JsStr → Bool) (v : FormValues) :
    (v.name = .str [] →
        Issue.tooSmall .name "Name is required" ∈ validationIssues isEmail v
          ∧ accepts isEmail v = false)
      ∧ (∀ e, v.email = .str e → isEmail e = false →
        Issue.invalidString .email "Invalid email address" ∈ validationIssues isEmail v
          ∧ accepts isEmail v = false)
      ∧ (∀ e, v.name = .str [] → v.email = .str e → isEmail e = false →
        ∃ others, validationIssues isEmail v
          = Issue.tooSmall .name "Name is required"
            :: Issue.invalidString .email "Invalid email address" :: others) := by
  refine ⟨?_, ?_, ?_⟩
  · intro hn
    constructor
    · rw [validationIssues_eq, hn]
      simp [zString, stringMin, issuesOf]
    · rw [accepts_eq, hn]
      simp [zString, stringMin, Except.isOk, Except.toBool]
  · intro e he hbad
    constructor
    · rw [validationIssues_eq, he]
      simp [zString, stringEmail, hbad, issuesOf]
    · rw [accepts_eq, he]
      simp [zString, stringEmail, hbad, Except.isOk, Except.toBool]
  · intro e hn he hbad
    rw [validationIssues_eq, hn, he]
    simp [zString, stringMin, stringEmail, hbad, issuesOf]

theorem resetEffect_closed (st : DialogState) (h : st.dialogOpen = false) :
    resetEffect st = { st with isDataLoaded := false, userDetails := .null } := by
  simp [resetEffect, h]

/-- When the dialog closes and no request is in flight, whatever its state (saved or not),
the reset effect sets `isDataLoaded` to `false` and `userDetails` to `null`; when it is
opened again the load effect therefore runs `loadData`, and after a successful GET that
returns `details` the form holds the values of `details` (none of the values left by the
session before), the data is marked loaded and `userDetails` is the fetched record. -/
theorem close_discards_session (st : DialogState) :
    (resetEffect (setOpen false st)).isDataLoaded = false
      ∧ (resetEffect (setOpen false st)).userDetails = .null
      ∧ (∀ get, loadEffect get (setOpen true (resetEffect (setOpen false st)))
          = loadData get (setOpen true (resetEffect (setOpen false st))))
      ∧ (∀ status details, responseOk status = true →
          (loadEffect (.response status (some (.obj details)))
              (setOpen true (resetEffect (setOpen false st)))).1.form = hydrate details
            ∧ (loadEffect (.response status (some (.obj details)))
              (setOpen true (resetEffect (setOpen false st)))).1.userDetails = .obj details
            ∧ (loadEffect (.response status (some (.obj details)))
              (setOpen true (resetEffect (setOpen false st)))).1.isDataLoaded = true
            ∧ (loadEffect (.response status (some (.obj details)))
              (setOpen true (resetEffect (setOpen false st)))).2 = none) := by
  have hclosed : resetEffect (setOpen false st)
      = { setOpen false st with isDataLoaded := false, userDetails := .null } :=
    resetEffect_closed _ rfl
  have hload : ∀ get, loadEffect get (setOpen true (resetEffect (setOpen false st)))
      = loadData get (setOpen true (resetEffect (setOpen false st))) := by
    intro get
    rw [hclosed]
    simp [loadEffect, setOpen]
  refine ⟨by rw [hclosed], by rw [hclosed], hload, ?_⟩
  intro status details hok
  rw [hload, loadData_ok _ status details hok]
  exact ⟨rfl, rfl, rfl, rfl⟩


/-- Running `loadData` without interruption is its first part followed by its second. -/
theorem loadData_eq_resume (get : FetchOutcome) (st : DialogState) :
    loadData get st = loadDataResume get (loadDataStart st) := by
  unfold loadData loadDataTry loadDataResume loadDataStart
  cases fetchUserDetails get with
  | error e => rfl
  | ok details => cases details <;> rfl

/-- C16, what the code does when the dialog is closed while the GET is in flight: the
reset effect clears `isDataLoaded` and `userDetails`, but the pending `loadData` then
resumes, stores the record and sets `isDataLoaded` back to `true` on the closed dialog;
when the dialog is opened the next time the load effect does nothing, whatever the
server would answer, and the form shows the values of the earlier response. -/
theorem close_during_load_skips_refetch (st : DialogState) (status : Nat)
    (details : JsObject) (hok : responseOk status = true) (next : FetchOutcome) :
    (resetEffect (setOpen false (loadDataStart (setOpen true st)))).isDataLoaded = false
      ∧ (loadDataResume (.response status (some (.obj details)))
          (resetEffect (setOpen false (loadDataStart (setOpen true st))))).1.isDataLoaded
        = true
      ∧ (loadDataResume (.response status (some (.obj details)))
          (resetEffect (setOpen false (loadDataStart (setOpen true st))))).1.dialogOpen
        = false
      ∧ loadEffect next (setOpen true
          (loadDataResume (.response status (some (.obj details)))
            (resetEffect (setOpen false (loadDataStart (setOpen true st))))).1)
        = (setOpen true
            (loadDataResume (.response status (some (.obj details)))
              (resetEffect (setOpen false (loadDataStart (setOpen true st))))).1, none)
      ∧ (setOpen true
          (loadDataResume (.response status (some (.obj details)))
            (resetEffect (setOpen false (loadDataStart (setOpen true st))))).1).form
        = hydrate details := by
  have hclosed : resetEffect (setOpen false (loadDataStart (setOpen true st)))
      = { setOpen false (loadDataStart (setOpen true st)) with
          isDataLoaded := false, userDetails := .null } :=
    resetEffect_closed _ rfl
  rw [hclosed]
  simp [loadDataResume, fetchUserDetails, hok, loadEffect, setOpen]

/-- An instance of C16: the dialog is opened, closed before the GET is answered, the
answer `{ name: "Ann" }` arrives, and the dialog is opened again while the server now
holds `{ name: "Bob" }`: no request is made and the form shows `"Ann"`. -/
theorem close_during_load_skips_refetch_witness :
    loadEffect (.response 200 (some (.obj [("name", .str "Bob".toList)])))
        (setOpen true
          (loadDataResume (.response 200 (some (.obj [("name", .str "Ann".toList)])))
            (resetEffect (setOpen false (loadDataStart (setOpen true DialogState.initial))))).1)
      = (setOpen true
          (loadDataResume (.response 200 (some (.obj [("name", .str "Ann".toList)])))
            (resetEffect (setOpen false (loadDataStart (setOpen true DialogState.initial))))).1,
         none)
      ∧ (setOpen true
          (loadDataResume (.response 200 (some (.obj [("name", .str "Ann".toList)])))
            (resetEffect (setOpen false (loadDataStart (setOpen true DialogState.initial))))).1
        ).form.name = .str "Ann".toList :=
  have h := close_during_load_skips_refetch DialogState.initial 200
    [("name", .str "Ann".toList)] (by decide)
    (.response 200 (some (.obj [("name", .str "Bob".toList)])))
  ⟨h.2.2.2.1, by rw [h.2.2.2.2]; decide⟩


/-- The handler `POST` hands the parsed body to `updateUserData`; the store after the
request is the one that call leaves; when the call returns a value the handler answers
with status 200 and that value, and when the call throws the handler throws the same
error.  Every response the handler returns has status 200. -/
theorem POST_relays_action {σ : Type} (action : Json → σ → σ × Except JsError Json)
    (payload : Json) (server : σ) :
    (POST action (some payload) server).1 = (action payload server).1
      ∧ (∀ userData, (action payload server).2 = .ok userData →
          (POST action (some payload) server).2 = .ok { status := 200, body := userData })
      ∧ (∀ e, (action payload server).2 = .error e →
          (POST action (some payload) server).2 = .error e)
      ∧ (∀ response, (POST action (some payload) server).2 = .ok response →
          response.status = 200) := by
  simp only [POST]
  rcases h : action payload server with ⟨server1, result⟩
  cases result with
  | ok userData =>
    refine ⟨rfl, ?_, ?_, ?_⟩
    · intro u hu
      cases hu
      rfl
    · intro e he
      cases he
    · intro response hresp
      cases hresp
      rfl
  | error e =>
    refine ⟨rfl, ?_, ?_, ?_⟩
    · intro u hu
      cases hu
    · intro e2 he
      cases he
      rfl
    · intro response hresp
      cases hresp

theorem submissionData_experience (data : SubmitData)
    (hexp : data.experience = none ∨ ∃ k : ℕ, k ≤ 50 ∧ data.experience = some (.fin (k : ℚ))) :
    ∃ k : ℕ, k ≤ 50 ∧ (submissionData data).experience = .fin (k : ℚ) := by
  rcases hexp with h | ⟨k, hk, h⟩
  · exact ⟨0, by omega, by simp [submissionData, h]⟩
  · by_cases h0 : (k : ℚ) = 0
    · exact ⟨0, by omega, by simp [submissionData, h, JsNum.truthy, h0]⟩
    · exact ⟨k, hk, by simp [submissionData, h, JsNum.truthy, h0]⟩

theorem payloadError_submission (isEmail : JsStr → Bool) (data : SubmitData)
    (hname : data.name ≠ []) (hemail : isEmail data.email = true)
    (hexp : data.experience = none ∨ ∃ k : ℕ, k ≤ 50 ∧ data.experience = some (.fin (k : ℚ))) :
    payloadError isEmail (.obj (submissionData data).toJson) = none := by
  obtain ⟨k, hk, hx⟩ := submissionData_experience data hexp
  have hk2 : (k : ℚ) ≤ 50 := by exact_mod_cast hk
  have hname2 : (submissionData data).name ≠ [] := hname
  have hemail2 : isEmail (submissionData data).email = true := hemail
  have hint : Rat.isInt (k : ℚ) = true := by simp [Rat.isInt]
  simp [payloadError, Submission.toJson, JsObject.get, List.lookup, hx, hname2, hemail2, hk2,
    hint]


theorem lookup_upsert (records : List (String × JsObject)) (id : String) (record : JsObject) :
    (upsert records id record).lookup id = some record := by
  simp [upsert, List.lookup]

theorem POST_valid_submission (isEmail : JsStr → Bool) (data : SubmitData) (server : Server)
    (id : String) (hcaller : server.caller = some id)
    (hname : data.name ≠ []) (hemail : isEmail data.email = true)
    (hexp : data.experience = none ∨ ∃ k : ℕ, k ≤ 50 ∧ data.experience = some (.fin (k : ℚ))) :
    POST (updateUserData isEmail) (some (.obj (submissionData data).toJson)) server
      = ({ server with records := upsert server.records id (submissionData data).toJson },
         .ok { status := 200, body := .obj (submissionData data).toJson }) := by
  simp [POST, updateUserData, hcaller, payloadError_submission isEmail data hname hemail hexp]

/-- C13: for a caller with an identity and a valid form state (a non-empty name, a valid
e-mail, experience absent or an integer from 0 to 50), the POST of the normalized payload
is answered with status 200 and that payload, and a GET that follows is answered with
status 200 and the same payload, whose fields are the normalized submitted values. -/
theorem submit_then_get_roundtrip (isEmail : JsStr → Bool) (data : SubmitData)
    (server : Server) (id : String) (hcaller : server.caller = some id)
    (hname : data.name ≠ []) (hemail : isEmail data.email = true)
    (hexp : data.experience = none ∨ ∃ k : ℕ, k ≤ 50 ∧ data.experience = some (.fin (k : ℚ))) :
    (POST (updateUserData isEmail) (some (.obj (submissionData data).toJson)) server).2
        = .ok { status := 200, body := .obj (submissionData data).toJson }
      ∧ (GET getUserDetails
          (POST (updateUserData isEmail) (some (.obj (submissionData data).toJson)) server).1).2
        = .ok { status := 200, body := .obj (submissionData data).toJson }
      ∧ (submissionData data).toJson.get "name" = .str data.name
      ∧ (submissionData data).toJson.get "email" = .str data.email
      ∧ (submissionData data).toJson.get "industry" = .str (data.industry.getD [])
      ∧ (∃ k : ℕ, k ≤ 50 ∧ (submissionData data).toJson.get "experience" = .num (.fin (k : ℚ))
          ∧ (data.experience = some (.fin (k : ℚ)) ∨ (data.experience = none ∧ k = 0)))
      ∧ (submissionData data).toJson.get "skills" = .arr (submissionSkills data.skills)
      ∧ (submissionData data).toJson.get "bio" = .str (data.bio.getD []) := by
  rw [POST_valid_submission isEmail data server id hcaller hname hemail hexp]
  refine ⟨rfl, ?_, ?_, ?_, ?_, ?_, ?_, ?_⟩
  · simp [GET, getUserDetails, hcaller, lookup_upsert]
  · simp [Submission.toJson, JsObject.get, List.lookup, submissionData]
  · simp [Submission.toJson, JsObject.get, List.lookup, submissionData]
  · cases h : data.industry with
    | none => simp [Submission.toJson, JsObject.get, List.lookup, submissionData, h]
    | some i => cases i <;> simp [Submission.toJson, JsObject.get, List.lookup, submissionData, h]
  · rcases hexp with h | ⟨k, hk, h⟩
    · exact ⟨0, by omega, by simp [Submission.toJson, JsObject.get, List.lookup, submissionData, h],
        Or.inr ⟨h, rfl⟩⟩
    · refine ⟨k, hk, ?_, Or.inl h⟩
      by_cases h0 : (k : ℚ) = 0
      · simp [Submission.toJson, JsObject.get, List.lookup, submissionData, h, JsNum.truthy, h0]
      · simp [Submission.toJson, JsObject.get, List.lookup, submissionData, h, JsNum.truthy, h0]
  · simp [Submission.toJson, JsObject.get, List.lookup, submissionData]
  · cases h : data.bio with
    | none => simp [Submission.toJson, JsObject.get, List.lookup, submissionData, h]
    | some b => cases b <;> simp [Submission.toJson, JsObject.get, List.lookup, submissionData, h]

/-- An instance of C13: Ann, five years of experience, skills `"Go, Rust"`; the GET after
the POST returns the name `"Ann"`, the key `"tech-software-development"`, experience 5
and the skills `["Go", "Rust"]`. -/
theorem submit_then_get_roundtrip_witness :
    (GET getUserDetails
        (POST (updateUserData emailRegexTest)
          (some (.obj (submissionData
            { name := "Ann".toList, email := "ann@x.com".toList,
              industry := some "tech-software-development".toList,
              experience := some (.fin 5), skills := some "Go, Rust".toList,
              bio := some "...".toList }).toJson))
          { caller := some "user_1", records := [] }).1).2
      = .ok (Response.mk 200 (.obj
          [("name", .str "Ann".toList), ("email", .str "ann@x.com".toList),
           ("industry", .str "tech-software-development".toList),
           ("experience", .num (.fin 5)), ("bio", .str "...".toList),
           ("skills", .arr ["Go".toList, "Rust".toList])])) :=
  (submit_then_get_roundtrip emailRegexTest
    { name := "Ann".toList, email := "ann@x.com".toList,
      industry := some "tech-software-development".toList,
      experience := some (.fin 5), skills := some "Go, Rust".toList,
      bio := some "...".toList }
    { caller := some "user_1", records := [] } "user_1" rfl (by decide) (by decide)
    (Or.inr ⟨5, by decide, by norm_num⟩)).2.1.trans
    (congrArg (fun o => Except.ok (Response.mk 200 (.obj o))) (by decide))


theorem or_str_of_empty (v : JsVal) (h : v = .undefined ∨ v = .null ∨ v = .str []) :
    v.or (.str []) = .str [] := by
  rcases h with rfl | rfl | rfl <;> simp [JsVal.or, JsVal.truthy]

theorem or_zero_of_empty (v : JsVal) (h : v = .undefined ∨ v = .null ∨ v = .num (.fin 0)) :
    v.or (.num (.fin 0)) = .num (.fin 0) := by
  rcases h with rfl | rfl | rfl <;> simp [JsVal.or, JsVal.truthy, JsNum.truthy]

theorem skillsString_of_empty (details : JsObject)
    (h : details.get "skills" = .undefined ∨ details.get "skills" = .null
      ∨ details.get "skills" = .str [] ∨ details.get "skills" = .arr []) :
    skillsString details = .str [] := by
  unfold skillsString
  rcases h with h | h | h | h <;> rw [h] <;> simp [JsVal.or, JsVal.truthy, joinWith]

/-- A record whose fields are all empty or absent seeds the default form state. -/
theorem hydrate_of_empty (details : JsObject)
    (hname : details.get "name" = .undefined ∨ details.get "name" = .null
      ∨ details.get "name" = .str [])
    (hemail : details.get "email" = .undefined ∨ details.get "email" = .null
      ∨ details.get "email" = .str [])
    (hindustry : details.get "industry" = .undefined ∨ details.get "industry" = .null
      ∨ details.get "industry" = .str [])
    (hexperience : details.get "experience" = .undefined ∨ details.get "experience" = .null
      ∨ details.get "experience" = .num (.fin 0))
    (hskills : details.get "skills" = .undefined ∨ details.get "skills" = .null
      ∨ details.get "skills" = .str [] ∨ details.get "skills" = .arr [])
    (hbio : details.get "bio" = .undefined ∨ details.get "bio" = .null
      ∨ details.get "bio" = .str []) :
    hydrate details = defaultValues := by
  simp only [hydrate, defaultValues, or_str_of_empty _ hname, or_str_of_empty _ hemail,
    or_str_of_empty _ hindustry, or_zero_of_empty _ hexperience,
    skillsString_of_empty _ hskills, or_str_of_empty _ hbio]

/-- C14: for a caller with an identity and no record, the handler `GET` answers with status
200 and the default record, not an error, and `loadData` turns that answer into the
default form state (name, email, industry, skills and bio `""`, experience 0) without
an error; the same holds for every answer whose fields are all empty or absent. -/
theorem GET_without_record_loads_defaults (server : Server) (id : String)
    (hcaller : server.caller = some id) (hnone : server.records.lookup id = none) :
    GET getUserDetails server = (server, .ok { status := 200, body := .obj defaultRecord })
      ∧ (∀ st, loadData (.response 200 (some (.obj defaultRecord))) st
          = ({ st with fetchingDetails := false, userDetails := .obj defaultRecord,
                       isDataLoaded := true, form := defaultValues }, none))
      ∧ (∀ st status details, responseOk status = true →
          (details.get "name" = .undefined ∨ details.get "name" = .null
            ∨ details.get "name" = .str []) →
          (details.get "email" = .undefined ∨ details.get "email" = .null
            ∨ details.get "email" = .str []) →
          (details.get "industry" = .undefined ∨ details.get "industry" = .null
            ∨ details.get "industry" = .str []) →
          (details.get "experience" = .undefined ∨ details.get "experience" = .null
            ∨ details.get "experience" = .num (.fin 0)) →
          (details.get "skills" = .undefined ∨ details.get "skills" = .null
            ∨ details.get "skills" = .str [] ∨ details.get "skills" = .arr []) →
          (details.get "bio" = .undefined ∨ details.get "bio" = .null
            ∨ details.get "bio" = .str []) →
          (loadData (.response status (some (.obj details))) st).1.form = defaultValues
            ∧ (loadData (.response status (some (.obj details))) st).2 = none) := by
  refine ⟨?_, ?_, ?_⟩
  · simp [GET, getUserDetails, hcaller, hnone]
  · intro st
    rw [loadData_ok st 200 defaultRecord (by decide)]
    have h : hydrate defaultRecord = defaultValues := by decide
    rw [h]
  · intro st status details hok hname hemail hindustry hexperience hskills hbio
    rw [loadData_ok st status details hok]
    exact ⟨hydrate_of_empty details hname hemail hindustry hexperience hskills hbio, rfl⟩

/-- An instance of C14: a signed-in caller and an empty store. -/
theorem GET_without_record_loads_defaults_witness :
    GET getUserDetails { caller := some "user_1", records := [] }
        = ({ caller := some "user_1", records := [] },
           .ok { status := 200, body := .obj defaultRecord })
      ∧ (loadData (.response 200 (some (.obj defaultRecord))) DialogState.initial).1.form
        = defaultValues :=
  have h := GET_without_record_loads_defaults { caller := some "user_1", records := [] }
    "user_1" rfl rfl
  ⟨h.1, by rw [h.2.1 DialogState.initial]⟩


theorem splitGo_append_of_not_mem (sep : Char) (x rest cur : JsStr) (hx : sep ∉ x) :
    splitGo sep (x ++ rest) cur = splitGo sep rest (x.reverse ++ cur) := by
  induction x generalizing cur with
  | nil => rfl
  | cons c cs ih =>
    simp only [List.mem_cons, not_or] at hx
    have hc : ¬ c = sep := fun e => hx.1 e.symm
    have hstep : splitGo sep (c :: (cs ++ rest)) cur = splitGo sep (cs ++ rest) (c :: cur) := by
      simp [splitGo, hc]
    rw [List.cons_append, hstep, ih (c :: cur) hx.2]
    simp

theorem split_of_not_mem (sep : Char) (x : JsStr) (hx : sep ∉ x) : split sep x = [x] := by
  have h := splitGo_append_of_not_mem sep x [] [] hx
  simp only [List.append_nil] at h
  simp [split, h, splitGo]

theorem split_append_sep (sep : Char) (x rest : JsStr) (hx : sep ∉ x) :
    split sep (x ++ sep :: rest) = x :: split sep rest := by
  unfold split
  rw [splitGo_append_of_not_mem sep x (sep :: rest) [] hx]
  simp [splitGo]

/-- Splitting a list joined with `", "`: the first token, then every later token behind
one space. -/
theorem split_joinWith_comma_space (x : JsStr) (xs : List JsStr)
    (h : ∀ t ∈ x :: xs, ',' ∉ t) :
    split ',' (joinWith ", ".toList (x :: xs)) = x :: xs.map (fun t => ' ' :: t) := by
  induction xs generalizing x with
  | nil => simpa [joinWith] using split_of_not_mem ',' x (h x (by simp))
  | cons y ys ih =>
    have hx : ',' ∉ x := h x (by simp)
    have hy : ',' ∉ (' ' :: y) := by
      have := h y (by simp)
      simp only [List.mem_cons, not_or]
      exact ⟨by decide, this⟩
    have hrest : ∀ t ∈ y :: ys, ',' ∉ t := fun t ht => h t (List.mem_cons_of_mem _ ht)
    have hjoin : joinWith ", ".toList (x :: y :: ys)
        = x ++ ',' :: (' ' :: joinWith ", ".toList (y :: ys)) := by
      simp [joinWith]
    rw [hjoin, split_append_sep ',' x _ hx]
    have hsp : split ',' (' ' :: joinWith ", ".toList (y :: ys))
        = (' ' :: y) :: ys.map (fun t => ' ' :: t) := by
      cases ys with
      | nil =>
        simpa [joinWith] using split_of_not_mem ',' (' ' :: y) hy
      | cons z zs =>
        have hj2 : ' ' :: joinWith ", ".toList (y :: z :: zs)
            = (' ' :: y) ++ ',' :: (' ' :: joinWith ", ".toList (z :: zs)) := by
          simp [joinWith]
        rw [hj2, split_append_sep ',' (' ' :: y) _ hy]
        have ih2 := ih y hrest
        have hj3 : joinWith ", ".toList (y :: z :: zs)
            = y ++ ',' :: (' ' :: joinWith ", ".toList (z :: zs)) := by
          simp [joinWith]
        rw [hj3, split_append_sep ',' y _ (h y (by simp))] at ih2
        simp only [List.map_cons, List.cons.injEq, true_and] at ih2
        rw [ih2]
        rfl
    rw [hsp]
    simp

theorem trimEnd_of_last (t : JsStr) (h : ∀ c, t.getLast? = some c → isWhiteSpace c = false) :
    trimEnd t = t := by
  unfold trimEnd
  have hd : t.reverse.dropWhile isWhiteSpace = t.reverse := by
    cases hr : t.reverse with
    | nil => rfl
    | cons c cs =>
      have hlast : t.getLast? = some c := by
        rw [← List.head?_reverse, hr]
        rfl
      simp [List.dropWhile, h c hlast]
  rw [hd, List.reverse_reverse]

theorem trimStart_of_head (t : JsStr) (h : ∀ c, t.head? = some c → isWhiteSpace c = false) :
    trimStart t = t := by
  unfold trimStart
  cases t with
  | nil => rfl
  | cons c cs => simp [List.dropWhile, h c rfl]

theorem trim_token (t : JsStr) (hhead : ∀ c, t.head? = some c → isWhiteSpace c = false)
    (hlast : ∀ c, t.getLast? = some c → isWhiteSpace c = false) :
    trim t = t ∧ trim (' ' :: t) = t := by
  have h1 : trim t = t := by
    unfold trim
    rw [trimStart_of_head t hhead, trimEnd_of_last t hlast]
  refine ⟨h1, ?_⟩
  have hsp : isWhiteSpace ' ' = true := by decide
  have h2 : trimStart (' ' :: t) = trimStart t := by
    simp [trimStart, List.dropWhile, hsp]
  unfold trim at h1 ⊢
  rw [h2, h1]


theorem map_trim_tokens (xs : List JsStr)
    (h : ∀ t ∈ xs, (∀ c, t.head? = some c → isWhiteSpace c = false)
      ∧ (∀ c, t.getLast? = some c → isWhiteSpace c = false)) :
    (xs.map (fun t => ' ' :: t)).map trim = xs := by
  induction xs with
  | nil => rfl
  | cons y ys ih =>
    have hy := h y (by simp)
    simp only [List.map_cons]
    rw [(trim_token y hy.1 hy.2).2, ih (fun t ht => h t (List.mem_cons_of_mem _ ht))]

theorem filter_nonempty_tokens (xs : List JsStr) (h : ∀ t ∈ xs, t ≠ []) :
    xs.filter (fun t => !t.isEmpty) = xs := by
  apply List.filter_eq_self.mpr
  intro t ht
  have := h t ht
  cases t with
  | nil => exact absurd rfl this
  | cons c cs => rfl

/-- C17: for every list `xs` of skill tokens that are non-empty, free of commas and without
white space at either end, splitting `xs.join(", ")` on commas, trimming each piece and
dropping the empty pieces returns `xs`; so the skills that `loadData` writes into the
form for the list `xs` are sent back by `onSubmit` as `xs`. -/
theorem skills_roundtrip (xs : List JsStr)
    (h : ∀ t ∈ xs, t ≠ [] ∧ (∀ c, t.head? = some c → isWhiteSpace c = false)
      ∧ (∀ c, t.getLast? = some c → isWhiteSpace c = false) ∧ ',' ∉ t) :
    ((split ',' (joinWith ", ".toList xs)).map trim).filter (fun t => !t.isEmpty) = xs
      ∧ submissionSkills (some (joinWith ", ".toList xs)) = xs
      ∧ (∀ details : JsObject, details.get "skills" = .arr xs →
          skillsString details = .str (joinWith ", ".toList xs)) := by
  have hmain : ((split ',' (joinWith ", ".toList xs)).map trim).filter (fun t => !t.isEmpty)
      = xs := by
    cases xs with
    | nil => decide
    | cons x rest =>
      have hx := h x (by simp)
      rw [split_joinWith_comma_space x rest (fun t ht => (h t ht).2.2.2)]
      simp only [List.map_cons]
      rw [(trim_token x hx.2.1 hx.2.2.1).1,
        map_trim_tokens rest (fun t ht =>
          ⟨(h t (List.mem_cons_of_mem _ ht)).2.1, (h t (List.mem_cons_of_mem _ ht)).2.2.1⟩)]
      exact filter_nonempty_tokens (x :: rest) (fun t ht => (h t ht).1)
  refine ⟨hmain, ?_, ?_⟩
  · unfold submissionSkills
    cases hj : joinWith ", ".toList xs with
    | nil =>
      rw [hj] at hmain
      simp only [List.isEmpty_nil, Bool.not_true, Bool.false_eq_true, if_false]
      rw [← hmain]
      decide
    | cons c cs =>
      rw [hj] at hmain
      simpa using hmain
  · intro details hd
    simp [skillsString, hd]

/-- An instance of C17: the list `["Go", "Rust", "C#"]` survives hydration and
submission. -/
theorem skills_roundtrip_witness :
    submissionSkills (some "Go, Rust, C#".toList) = ["Go".toList, "Rust".toList, "C#".toList] :=
  (skills_roundtrip ["Go".toList, "Rust".toList, "C#".toList] (by decide)).2.1


namespace OnboardingForm

theorem mathRound_quarter (c : ℕ) : mathRound ((c : ℚ) / 4 * 100) = 25 * (c : ℤ) := by
  unfold mathRound
  rw [Int.floor_eq_iff]
  push_cast
  constructor <;> linarith

theorem mathRound_fifth (c : ℕ) : mathRound ((c : ℚ) / 5 * 100) = 20 * (c : ℤ) := by
  unfold mathRound
  rw [Int.floor_eq_iff]
  push_cast
  constructor <;> linarith

/-- The percentage in closed form: twenty per filled field when an industry is chosen,
twenty-five per filled field otherwise. -/
theorem getProgressPercentage_closed (w : Watched) :
    getProgressPercentage w.industry (trackCompletedSteps w)
      = if truthy w.industry = true then
          20 * (((truthy w.industry).toNat + (truthy w.subIndustry).toNat
            + (truthy w.experience).toNat + (truthy w.skills).toNat
            + (truthy w.bio).toNat : ℕ) : ℤ)
        else
          25 * (((truthy w.industry).toNat + (truthy w.subIndustry).toNat
            + (truthy w.experience).toNat + (truthy w.skills).toNat
            + (truthy w.bio).toNat : ℕ) : ℤ) := by
  unfold getProgressPercentage
  rw [trackCompletedSteps_length]
  by_cases h : truthy w.industry = true
  · simp only [h, if_true]
    exact mathRound_fifth _
  · simp only [h, if_false]
    exact mathRound_quarter _

/-- C18, what the code does for a specialization set while no industry is chosen, with
experience, skills and bio filled: the tracking effect counts subIndustry, the total is
4, and the percentage is 100, although industry is empty and only three of the four
steps that the total stands for (industry, experience, skills, bio) are filled. -/
theorem getProgressPercentage_full_without_industry :
    getProgressPercentage none
        (trackCompletedSteps
          { industry := none, subIndustry := some "Backend".toList,
            experience := some "3".toList, skills := some "Go".toList,
            bio := some "Hi".toList }) = 100
      ∧ trackCompletedSteps
          { industry := none, subIndustry := some "Backend".toList,
            experience := some "3".toList, skills := some "Go".toList,
            bio := some "Hi".toList } = [.subIndustry, .experience, .skills, .bio]
      ∧ totalTrackedFields
          { industry := none, subIndustry := some "Backend".toList,
            experience := some "3".toList, skills := some "Go".toList,
            bio := some "Hi".toList } = 4
      ∧ ([(none : Field), some "3".toList, some "Go".toList, some "Hi".toList].filter
          truthy).length = 3 := by
  refine ⟨?_, by decide, by decide, by decide⟩
  have h := getProgressPercentage_closed
    { industry := none, subIndustry := some "Backend".toList,
      experience := some "3".toList, skills := some "Go".toList, bio := some "Hi".toList }
  simp only at h
  rw [h]
  decide

/-- For every combination of the five fields the percentage computed from the
completed-step set of that combination is between 0 and 100 inclusive, and it is 100
exactly when subIndustry, experience, skills and bio are all filled; unless a
specialization is set while no industry is chosen, that is exactly when all five fields
are filled. -/
theorem getProgressPercentage_range (w : Watched) :
    0 ≤ getProgressPercentage w.industry (trackCompletedSteps w)
      ∧ getProgressPercentage w.industry (trackCompletedSteps w) ≤ 100
      ∧ (getProgressPercentage w.industry (trackCompletedSteps w) = 100
          ↔ (truthy w.subIndustry = true ∧ truthy w.experience = true
              ∧ truthy w.skills = true ∧ truthy w.bio = true))
      ∧ (¬ (truthy w.industry = false ∧ truthy w.subIndustry = true) →
          (getProgressPercentage w.industry (trackCompletedSteps w) = 100
            ↔ (truthy w.industry = true ∧ truthy w.subIndustry = true
                ∧ truthy w.experience = true ∧ truthy w.skills = true
                ∧ truthy w.bio = true))) := by
  rw [getProgressPercentage_closed]
  cases truthy w.industry <;> cases truthy w.subIndustry <;> cases truthy w.experience <;>
    cases truthy w.skills <;> cases truthy w.bio <;> simp

/-- Between the settled renders before and after the industry select handler, in a form
with no industry chosen and no specialization set, the percentage does not drop; for a
non-empty id the total goes from 4 to 5. -/
theorem onIndustryChange_progress_mono (industries : List Industry) (v : JsStr) (st : State)
    (hindustry : truthy st.form.industry = false)
    (hsub : truthy st.form.subIndustry = false) :
    getProgressPercentage st.form.industry (trackCompletedSteps st.form)
        ≤ getProgressPercentage (onIndustryChange industries v st).form.industry
            (trackCompletedSteps (onIndustryChange industries v st).form)
      ∧ (v ≠ [] → totalTrackedFields st.form = 4
          ∧ totalTrackedFields (onIndustryChange industries v st).form = 5) := by
  constructor
  · rw [getProgressPercentage_closed, getProgressPercentage_closed]
    have hempty : truthy (some ([] : JsStr)) = false := rfl
    simp only [onIndustryChange, hindustry, hsub, hempty]
    cases v with
    | nil =>
      simp only [hempty]
      cases truthy st.form.experience <;> cases truthy st.form.skills <;>
        cases truthy st.form.bio <;> simp
    | cons c cs =>
      have hfull : truthy (some (c :: cs)) = true := rfl
      simp only [hfull]
      cases truthy st.form.experience <;> cases truthy st.form.skills <;>
        cases truthy st.form.bio <;> simp
  · intro hv
    rw [totalTrackedFields_eq, totalTrackedFields_eq, hindustry]
    cases v with
    | nil => exact absurd rfl hv
    | cons c cs => simp [onIndustryChange, truthy]

/-- With experience and skills filled, choosing the industry `"tech"` takes the settled
percentage from 50 to 60. -/
theorem onIndustryChange_progress_mono_witness :
    getProgressPercentage none
        (trackCompletedSteps
          { industry := none, subIndustry := none, experience := some "3".toList,
            skills := some "Go".toList, bio := none })
      ≤ getProgressPercentage (some "tech".toList)
        (trackCompletedSteps
          { industry := some "tech".toList, subIndustry := some [],
            experience := some "3".toList, skills := some "Go".toList, bio := none }) :=
  (onIndustryChange_progress_mono [] "tech".toList
    { form := { industry := none, subIndustry := none, experience := some "3".toList,
                skills := some "Go".toList, bio := none },
      selectedIndustry := .null } rfl rfl).1

end OnboardingForm


namespace OnboardingForm

theorem getProgressPercentage_round_of_set (watchIndustry : Field) (completedSteps : List Step) :
    ((getProgressPercentage watchIndustry completedSteps : ℤ) : ℚ) - 1 / 2
        ≤ 100 * (completedSteps.length : ℚ) / (if truthy watchIndustry = true then 5 else 4)
      ∧ 100 * (completedSteps.length : ℚ) / (if truthy watchIndustry = true then 5 else 4)
        < (getProgressPercentage watchIndustry completedSteps : ℚ) + 1 / 2 := by
  have hx : getProgressPercentage watchIndustry completedSteps
      = mathRound (100 * (completedSteps.length : ℚ)
          / (if truthy watchIndustry = true then 5 else 4)) := by
    have hq : (completedSteps.length : ℚ) / (if truthy watchIndustry = true then 5 else 4) * 100
        = 100 * (completedSteps.length : ℚ)
          / (if truthy watchIndustry = true then 5 else 4) := by
      ring
    rw [← hq]
    rfl
  rw [hx]
  exact mathRound_spec _

/-- C4, refuted as stated: in the render that follows typing `"Go"` into the skills input
of the empty form, `getProgressPercentage` still reads the empty set left by the tracking
effect and returns 0, while one of four tracked fields is non-empty and
`round(100 × 1 / 4)` is 25. -/
theorem percentage_stale_after_typing :
    (Rendered.typeSkills "Go".toList Rendered.initial).percentage = 0
      ∧ runTrackingEffect Rendered.initial = Rendered.initial
      ∧ completedFieldCount (Rendered.typeSkills "Go".toList Rendered.initial).state.form = 1
      ∧ totalTrackedFields (Rendered.typeSkills "Go".toList Rendered.initial).state.form = 4
      ∧ mathRound (100 * ((1 : ℕ) : ℚ) / ((4 : ℕ) : ℚ)) = 25 := by
  refine ⟨?_, by decide, by decide, by decide, ?_⟩
  · have h := mathRound_quarter 0
    simp only [Nat.cast_zero, mul_zero] at h
    simpa [Rendered.percentage, Rendered.typeSkills, Rendered.initial, getProgressPercentage,
      truthy] using h
  · unfold mathRound
    rw [Int.floor_eq_iff]
    norm_num

/-- C4, amended: in every render `getProgressPercentage` is the integer nearest to
`100 × n / t` (a tie going upwards), where `n` is the size of the set `completedSteps`
left by the last run of the tracking effect and `t` is 5 if an industry is chosen and 4
otherwise; once the tracking effect has run for the current values, `n` is the number
`c` of non-empty fields among industry, subIndustry, experience, skills and bio, and
the result is the integer nearest to `100 × c / t`. -/
theorem percentage_eq_round_of_tracked (r : Rendered) :
    ((r.percentage : ℚ) - 1 / 2
          ≤ 100 * (r.completedSteps.length : ℚ) / (totalTrackedFields r.state.form : ℚ)
        ∧ 100 * (r.completedSteps.length : ℚ) / (totalTrackedFields r.state.form : ℚ)
          < (r.percentage : ℚ) + 1 / 2)
      ∧ (runTrackingEffect r).state = r.state
      ∧ (runTrackingEffect r).completedSteps.length = completedFieldCount r.state.form
      ∧ (((runTrackingEffect r).percentage : ℚ) - 1 / 2
          ≤ 100 * (completedFieldCount r.state.form : ℚ) / (totalTrackedFields r.state.form : ℚ)
        ∧ 100 * (completedFieldCount r.state.form : ℚ) / (totalTrackedFields r.state.form : ℚ)
          < ((runTrackingEffect r).percentage : ℚ) + 1 / 2) := by
  refine ⟨?_, rfl, ?_, ?_⟩
  · have h := getProgressPercentage_round_of_set r.state.form.industry r.completedSteps
    rw [totalTrackedFields_eq]
    unfold Rendered.percentage
    by_cases hi : truthy r.state.form.industry = true
    · simpa [hi] using h
    · simpa [hi] using h
  · simp only [runTrackingEffect]
    rw [trackCompletedSteps_length, completedFieldCount_eq]
  · exact getProgressPercentage_eq_round r.state.form

/-- C19, refuted as stated: with experience and skills filled and no industry, the
percentage is 50; in the render that follows the choice of the industry `"tech"` the
total is 5 and `completedSteps` still holds the two old steps, so the percentage is 40;
after the tracking effect it is 60. -/
theorem percentage_drops_after_pick :
    (runTrackingEffect
        (Rendered.mk
          { form := { industry := none, subIndustry := none, experience := some "3".toList,
                      skills := some "Go".toList, bio := none },
            selectedIndustry := .null } [])).percentage = 50
      ∧ (Rendered.pickIndustry [] "tech".toList
          (runTrackingEffect
            (Rendered.mk
              { form := { industry := none, subIndustry := none,
                          experience := some "3".toList, skills := some "Go".toList,
                          bio := none },
                selectedIndustry := .null } []))).percentage = 40
      ∧ (runTrackingEffect
          (Rendered.pickIndustry [] "tech".toList
            (runTrackingEffect
              (Rendered.mk
                { form := { industry := none, subIndustry := none,
                            experience := some "3".toList, skills := some "Go".toList,
                            bio := none },
                  selectedIndustry := .null } [])))).percentage = 60 := by
  refine ⟨?_, ?_, ?_⟩
  · have hset : (runTrackingEffect
        (Rendered.mk
          { form := { industry := none, subIndustry := none, experience := some "3".toList,
                      skills := some "Go".toList, bio := none },
            selectedIndustry := .null } [])).completedSteps = [.experience, .skills] := by
      decide
    unfold Rendered.percentage
    rw [hset]
    simpa [getProgressPercentage, truthy, runTrackingEffect] using mathRound_quarter 2
  · have hset : (Rendered.pickIndustry [] "tech".toList
        (runTrackingEffect
          (Rendered.mk
            { form := { industry := none, subIndustry := none,
                        experience := some "3".toList, skills := some "Go".toList,
                        bio := none },
              selectedIndustry := .null } []))).completedSteps = [.experience, .skills] := by
      decide
    unfold Rendered.percentage
    rw [hset]
    simpa [getProgressPercentage, truthy, runTrackingEffect, Rendered.pickIndustry,
      onIndustryChange] using mathRound_fifth 2
  · have hset : (runTrackingEffect
        (Rendered.pickIndustry [] "tech".toList
          (runTrackingEffect
            (Rendered.mk
              { form := { industry := none, subIndustry := none,
                          experience := some "3".toList, skills := some "Go".toList,
                          bio := none },
                selectedIndustry := .null } [])))).completedSteps
        = [.industry, .experience, .skills] := by
      decide
    unfold Rendered.percentage
    rw [hset]
    simpa [getProgressPercentage, truthy, runTrackingEffect, Rendered.pickIndustry,
      onIndustryChange] using mathRound_fifth 3

/-- C19, amended: for every render in which the tracking effect has run for the current
values, with no industry chosen and no specialization set, choosing an industry never
lowers the percentage once the tracking effect has run again: the value after that run
is at least the value before the selection (for a non-empty id the total goes from 4 to
5).  The render between the selection and that run is not covered. -/
theorem pickIndustry_settled_mono (industries : List Industry) (v : JsStr) (r : Rendered)
    (hsettled : r.completedSteps = trackCompletedSteps r.state.form)
    (hindustry : truthy r.state.form.industry = false)
    (hsub : truthy r.state.form.subIndustry = false) :
    r.percentage ≤ (runTrackingEffect (r.pickIndustry industries v)).percentage
      ∧ (v ≠ [] → totalTrackedFields r.state.form = 4
          ∧ totalTrackedFields (runTrackingEffect (r.pickIndustry industries v)).state.form
            = 5) := by
  have h := onIndustryChange_progress_mono industries v r.state hindustry hsub
  constructor
  · unfold Rendered.percentage
    rw [hsettled]
    exact h.1
  · exact h.2

/-- An instance of the amended C19: experience and skills are filled, the tracking effect
has run, then the industry `"tech"` is chosen and the effect runs again. -/
theorem pickIndustry_settled_mono_witness :
    (runTrackingEffect
        (Rendered.mk
          { form := { industry := none, subIndustry := none, experience := some "3".toList,
                      skills := some "Go".toList, bio := none },
            selectedIndustry := .null } [])).percentage
      ≤ (runTrackingEffect
          (Rendered.pickIndustry [] "tech".toList
            (runTrackingEffect
              (Rendered.mk
                { form := { industry := none, subIndustry := none,
                            experience := some "3".toList, skills := some "Go".toList,
                            bio := none },
                  selectedIndustry := .null } [])))).percentage :=
  (pickIndustry_settled_mono [] "tech".toList
    (runTrackingEffect
      (Rendered.mk
        { form := { industry := none, subIndustry := none, experience := some "3".toList,
                    skills := some "Go".toList, bio := none },
          selectedIndustry := .null } []))
    rfl rfl rfl).1

end OnboardingForm


theorem updateUserData_invalid (isEmail : JsStr → Bool) (payload : Json) (server : Server)
    (field : String) (hinvalid : payloadError isEmail payload = some field) :
    (updateUserData isEmail payload server).1 = server
      ∧ ∃ e, (updateUserData isEmail payload server).2 = .error e
          ∧ (∀ id, server.caller = some id → e = .error field) := by
  cases hc : server.caller with
  | none =>
    have h : updateUserData isEmail payload server
        = (server, .error (.error "Unauthorized")) := by
      simp [updateUserData, hc]
    rw [h]
    refine ⟨rfl, .error "Unauthorized", rfl, ?_⟩
    intro id hid
    cases hid
  | some id =>
    have h : updateUserData isEmail payload server = (server, .error (.error field)) := by
      simp [updateUserData, hc, hinvalid]
    rw [h]
    exact ⟨rfl, .error field, rfl, fun _ _ => rfl⟩

/-- A payload that fails validation: the store is left as it was and the request is
answered with status 500 without a JSON body. -/
theorem served_POST_invalid (isEmail : JsStr → Bool) (payload : Json) (server : Server)
    (field : String) (hinvalid : payloadError isEmail payload = some field) :
    (POST (updateUserData isEmail) (some payload) server).1 = server
      ∧ served (POST (updateUserData isEmail) (some payload) server).2 = .response 500 none := by
  obtain ⟨hstore, e, he, -⟩ := updateUserData_invalid isEmail payload server field hinvalid
  have hrelay := POST_relays_action (updateUserData isEmail) payload server
  refine ⟨hrelay.1.trans hstore, ?_⟩
  rw [hrelay.2.2.1 e he]
  rfl

/-- C12, refuted as stated: a payload with an empty name and a payload with an invalid
e-mail fail validation on different fields, and both requests are answered with the same
response, status 500 without a JSON body; the response does not describe the failing
field. -/
theorem POST_rejection_has_no_description :
    payloadError emailRegexTest
        (.obj [("name", .str []), ("email", .str "ann@x.com".toList)]) = some "name"
      ∧ payloadError emailRegexTest
        (.obj [("name", .str "Ann".toList), ("email", .str "nobody".toList)]) = some "email"
      ∧ served (POST (updateUserData emailRegexTest)
          (some (.obj [("name", .str []), ("email", .str "ann@x.com".toList)]))
          { caller := some "user_1", records := [] }).2 = .response 500 none
      ∧ served (POST (updateUserData emailRegexTest)
          (some (.obj [("name", .str "Ann".toList), ("email", .str "nobody".toList)]))
          { caller := some "user_1", records := [] }).2 = .response 500 none := by
  exact ⟨by decide, by decide,
    (served_POST_invalid emailRegexTest _ _ "name" (by decide)).2,
    (served_POST_invalid emailRegexTest _ _ "email" (by decide)).2⟩

/-- C12, amended: for every POST request whose payload fails the validation rules, the
handler returns no response of its own: the rejection raised by `updateUserData`, which
names the failing field for a caller with an identity, leaves the handler as an error,
the request is answered with status 500, which is outside 200 to 299 and carries no
description of the failing field, and the user-record store is not written. -/
theorem POST_invalid_payload_rejected (isEmail : JsStr → Bool) (payload : Json)
    (server : Server) (field : String)
    (hinvalid : payloadError isEmail payload = some field) :
    (POST (updateUserData isEmail) (some payload) server).1 = server
      ∧ (∃ e, (POST (updateUserData isEmail) (some payload) server).2 = .error e
          ∧ (∀ id, server.caller = some id → e = .error field))
      ∧ served (POST (updateUserData isEmail) (some payload) server).2 = .response 500 none
      ∧ responseOk 500 = false := by
  obtain ⟨hstore, e, he, hfield⟩ := updateUserData_invalid isEmail payload server field hinvalid
  have hrelay := POST_relays_action (updateUserData isEmail) payload server
  refine ⟨hrelay.1.trans hstore, ⟨e, hrelay.2.2.1 e he, hfield⟩, ?_, by decide⟩
  rw [hrelay.2.2.1 e he]
  rfl

/-- An instance of the amended C12: a payload with an empty name, sent by a caller whose
record holds the name `"Ann"`; the record is still there after the request. -/
theorem POST_invalid_payload_rejected_witness :
    (POST (updateUserData emailRegexTest)
        (some (.obj [("name", .str []), ("email", .str "ann@x.com".toList)]))
        { caller := some "user_1",
          records := [("user_1", [("name", .str "Ann".toList)])] }).1
      = { caller := some "user_1", records := [("user_1", [("name", .str "Ann".toList)])] } :=
  (POST_invalid_payload_rejected emailRegexTest
    (.obj [("name", .str []), ("email", .str "ann@x.com".toList)])
    { caller := some "user_1", records := [("user_1", [("name", .str "Ann".toList)])] }
    "name" (by decide)).1

end ProfileSync
